import Mathlib

/-!
Verification development for the CDC / SCD-Type-2 core of the
`gcp-data-platform-demo` repository.

The embedding translates two source modules:

* `src/pipelines/utils/scd_type2_handler.py` (`SCDType2Handler`):
  grouping of CDC events, change detection, history-record construction,
  and the batch algorithm `process_hourly_changes`, with the BigQuery
  history table modelled as an explicit list of history rows for the one
  object type a handler invocation works on.
* `src/pipelines/utils/cdc_validators.py` (`CDCValidator`):
  the per-event validation rules and the running validation statistics.

Modelling conventions:

* Python values appearing in events are modelled by `PyPrim` (scalars)
  and `PyVal` (scalars plus one level of list/dict containers); nested
  containers do not occur in the repository's event shapes.  Equality of
  values is structural (`DecidableEq`); Python's numeric cross-type
  equalities such as `True == 1` are not modelled.
* Python string comparison (used for the timestamp sort and the
  `valid_from < valid_to` ordering) is code-point lexicographic; it is
  embedded as `strLt`/`strLe` over `String.data` because Lean's built-in
  `String` order does not reduce in the kernel.
* `list.sort(key=...)` is a stable sort; it is embedded as a stable
  insertion sort by the same key.
* Wall-clock-dependent pieces (`datetime.now`) are threaded as explicit
  parameters: `now` for the `ingestion_timestamp` stamp of new history
  rows, and a `ClockOracle` for the timestamp-reasonableness checks of
  the validator.
* Store access (BigQuery read / UPDATE / bulk insert) is modelled on the
  explicit row list; fallibility of those external calls is modelled by
  the oracles `readFails`, `closeFails`, `insertFails`, whose `true`
  branches follow the corresponding Python `except` branches.
-/

/-- Scalar Python values occurring in CDC event fields and snapshots. -/
inductive PyPrim where
  | none
  | bool (b : Bool)
  | int (n : Int)
  | str (s : String)
deriving DecidableEq, Repr

/-- Python values for the top-level fields of a CDC event: a scalar, a
list of scalars, or a string-keyed dict of scalars (entity snapshot). -/
inductive PyVal where
  | prim (p : PyPrim)
  | list (xs : List PyPrim)
  | dict (kvs : List (String × PyPrim))
deriving DecidableEq, Repr

/-- Shorthand for the Python `None` at event-field level. -/
def PyVal.noneV : PyVal := PyVal.prim PyPrim.none

/-- Python truthiness of a value (`if not x`, `if x`). -/
def PyVal.truthy : PyVal → Bool
  | PyVal.prim PyPrim.none => false
  | PyVal.prim (PyPrim.bool b) => b
  | PyVal.prim (PyPrim.int n) => decide (n ≠ 0)
  | PyVal.prim (PyPrim.str s) => decide (s ≠ "")
  | PyVal.list xs => decide (xs ≠ [])
  | PyVal.dict kvs => decide (kvs ≠ [])

/-- Python `str()` of a scalar. -/
def PyPrim.pyStr : PyPrim → String
  | PyPrim.none => "None"
  | PyPrim.bool b => if b then "True" else "False"
  | PyPrim.int n => toString n
  | PyPrim.str s => s

/-- Python `repr()` of a scalar (as rendered inside containers). -/
def PyPrim.pyRepr : PyPrim → String
  | PyPrim.str s => "'" ++ s ++ "'"
  | p => p.pyStr

/-- Python `str()` of an event-field value; containers render with their
element reprs, brackets and braces included, as in CPython. -/
def PyVal.pyStr : PyVal → String
  | PyVal.prim p => p.pyStr
  | PyVal.list xs => "[" ++ String.intercalate ", " (xs.map PyPrim.pyRepr) ++ "]"
  | PyVal.dict kvs =>
      "\x7b" ++
        String.intercalate ", " (kvs.map (fun kv => "'" ++ kv.1 ++ "': " ++ kv.2.pyRepr)) ++
      "\x7d"

/-- Code-point lexicographic comparison of char lists (Python `<` on str). -/
def chLt : List Char → List Char → Bool
  | [], [] => false
  | [], _ :: _ => true
  | _ :: _, [] => false
  | a :: as, b :: bs =>
      if a.toNat < b.toNat then true
      else if b.toNat < a.toNat then false
      else chLt as bs

/-- Python `a < b` on strings. -/
def strLt (a b : String) : Bool := chLt a.data b.data

/-- Python `a <= b` on strings (total order, so `≤` is `¬ >`). -/
def strLe (a b : String) : Bool := !(strLt b a)

/-! ### Entity snapshots and change detection
(`SCDType2Handler.detect_changes`) -/

/-- An entity snapshot: the string-keyed dict held under `before`/`after`. -/
abbrev Snapshot : Type := List (String × PyPrim)

/-- Python `d.get(field)` on a snapshot: `None` when the key is absent. -/
def sget (s : Snapshot) (f : String) : PyPrim :=
  match s.lookup f with
  | some v => v
  | none => PyPrim.none

/-- Python `d.keys()` of a snapshot. -/
def skeys (s : Snapshot) : List String := s.map Prod.fst

/-- Metadata fields skipped by change detection
(`metadata_fields` in `detect_changes`). -/
def metadata_fields : List String :=
  ["ingestion_timestamp", "source", "_cdc_event_id",
   "_cdc_event_type", "_cdc_event_timestamp", "_pubsub_message_id",
   "_processing_timestamp", "system_modstamp"]

/-- Result dictionary of `detect_changes`. -/
structure Changes where
  has_changes : Bool
  changed_fields : List String
  field_changes : List (String × (PyPrim × PyPrim))
deriving DecidableEq, Repr

/-- One comparison step of the `detect_changes` field loop. -/
def detectStep (before after : Snapshot) (ch : Changes) (f : String) : Changes :=
  let before_val := sget before f
  let after_val := sget after f
  if before_val ≠ after_val then
    { has_changes := true
      changed_fields := ch.changed_fields ++ [f]
      field_changes := ch.field_changes ++ [(f, (before_val, after_val))] }
  else ch

/-- Embedding of `SCDType2Handler.detect_changes`.  `tracked_fields`
follows the Python truthiness test: `none` and the empty list both fall
back to the union of the two key sets.  Python iterates a `set`, whose
order is unspecified; the embedding fixes first-occurrence order, which
leaves `has_changes` and the `changed_fields` membership unchanged. -/
def detect_changes (before after : Snapshot)
    (tracked_fields : Option (List String) := Option.none) : Changes :=
  let fields_to_check :=
    match tracked_fields with
    | some (f :: fs) => (f :: fs).dedup
    | _ => (skeys before ++ skeys after).dedup
  let fields := fields_to_check.filter (fun f => !(metadata_fields.contains f))
  fields.foldl (detectStep before after)
    { has_changes := false, changed_fields := [], field_changes := [] }

/-! ### CDC events and history records -/

/-- A CDC event as consumed by the SCD2 handler.  The five keys are the
ones the handler reads; each is `Option`-valued, `none` standing for the
key being absent or JSON-null (the handler's `.get` calls treat the two
alike except for the `before`/`after` dict defaults, see
`processEvent`). -/
structure CDCEvent where
  event_type : Option String
  event_timestamp : Option String
  record_id : Option String
  before : Option Snapshot
  after : Option Snapshot
deriving DecidableEq, Repr

/-- A row of the history table (`<object_type>_history`). -/
structure HistoryRecord where
  id : String
  valid_from : Option String
  valid_to : Option String
  is_current : Bool
  change_type : String
  changed_fields : List String
  record_data : Option Snapshot
  ingestion_timestamp : String
deriving DecidableEq, Repr

/-- Embedding of `SCDType2Handler.create_history_record`.  The Python
builder serializes `changed_fields` and `record_data` with `json.dumps`;
the embedding keeps them structured (the serialization is injective on
the modelled values) and takes the `datetime.now` stamp as the explicit
parameter `now`. -/
def create_history_record (now : String) (record_id : String)
    (record_data : Option Snapshot) (valid_from : Option String)
    (change_type : String) (changed_fields : List String)
    (is_current : Bool := true) (valid_to : Option String := Option.none) :
    HistoryRecord :=
  { id := record_id
    valid_from := valid_from
    valid_to := valid_to
    is_current := is_current
    change_type := change_type
    changed_fields := changed_fields
    record_data := record_data
    ingestion_timestamp := now }

/-! ### Grouping and sorting (`SCDType2Handler.group_events_by_record`) -/

/-- Stable ordered insert for the stable sort below. -/
def orderedInsertB (le : α → α → Bool) (a : α) : List α → List α
  | [] => [a]
  | b :: l => if le a b then a :: b :: l else b :: orderedInsertB le a l

/-- Stable insertion sort; the embedding of Python's (stable) `list.sort`. -/
def insertionSortB (le : α → α → Bool) : List α → List α
  | [] => []
  | a :: l => orderedInsertB le a (insertionSortB le l)

/-- Sort key of the per-group sort: `e.get('event_timestamp', '')`. -/
def eventSortKey (e : CDCEvent) : String := e.event_timestamp.getD ""

/-- Comparison used when sorting a group's events by timestamp. -/
def eventLe (a b : CDCEvent) : Bool := strLe (eventSortKey a) (eventSortKey b)

/-- Python truthiness test `if record_id:` used while grouping. -/
def keepEvent (e : CDCEvent) : Bool :=
  match e.record_id with
  | some k => decide (k ≠ "")
  | Option.none => false

/-- Append an event to its key's group, keeping first-occurrence key
order (Python `defaultdict` insertion order). -/
def addToGroup (k : String) (e : CDCEvent) :
    List (String × List CDCEvent) → List (String × List CDCEvent)
  | [] => [(k, [e])]
  | (k', es) :: rest =>
      if k' = k then (k', es ++ [e]) :: rest
      else (k', es) :: addToGroup k e rest

/-- The grouping fold, before the per-group sort. -/
def groupFold (events : List CDCEvent) : List (String × List CDCEvent) :=
  events.foldl
    (fun acc e =>
      match e.record_id with
      | some k => if k = "" then acc else addToGroup k e acc
      | Option.none => acc)
    []

/-- Embedding of `SCDType2Handler.group_events_by_record`: group by
`record_id` (dropping falsy ids), then sort each group by timestamp. -/
def group_events_by_record (events : List CDCEvent) :
    List (String × List CDCEvent) :=
  (groupFold events).map (fun g => (g.1, insertionSortB eventLe g.2))

/-! ### Store access (BigQuery, modelled as an explicit row list) -/

/-- The history table for the object type being processed. -/
abbrev Store : Type := List HistoryRecord

/-- Embedding of `SCDType2Handler.get_current_record`: the
`SELECT ... WHERE id = @record_id AND is_current = TRUE LIMIT 1` read.
A raised store error is caught inside the function, logged, and turned
into `None` (`except ... return None`); `readFails` selects the keys
whose read raises. -/
def get_current_record (readFails : String → Bool) (store : Store)
    (record_id : String) : Option HistoryRecord :=
  if readFails record_id then Option.none
  else (store.filter (fun r => r.id == record_id && r.is_current)).head?

/-- A queued close operation (`records_to_close` entry). -/
structure CloseOp where
  record_id : String
  valid_to : Option String
deriving DecidableEq, Repr

/-- Effect on the table of one successful
`SCDType2Handler.close_current_record` call: the
`UPDATE ... SET valid_to = @valid_to, is_current = FALSE WHERE id =
@record_id AND is_current = TRUE` statement. -/
def close_current_record (store : Store) (c : CloseOp) : Store :=
  store.map (fun r =>
    if r.id == c.record_id && r.is_current then
      { r with valid_to := c.valid_to, is_current := false }
    else r)

/-! ### The batch algorithm (`SCDType2Handler.process_hourly_changes`) -/

/-- The statistics dictionary returned by `process_hourly_changes`. -/
structure Stats where
  total_events : Nat
  records_processed : Nat
  records_inserted : Nat
  records_updated : Nat
  errors : Nat
deriving DecidableEq, Repr

/-- Mutable state of a `process_hourly_changes` run before the apply
phase: the shared `new_history_records` and `records_to_close` lists and
the `stats` dict. -/
structure BatchAcc where
  new_history_records : List HistoryRecord
  records_to_close : List CloseOp
  stats : Stats
deriving DecidableEq, Repr

/-- One iteration of the per-event loop inside a record group.
`current_record` is the group's read result, fetched once before the
loop.  An `.error` result models the `AttributeError` that
`detect_changes` raises when an UPDATE event carries a null
`before`/`after` snapshot (the only raising operation in the loop body);
it is caught by the per-group `try/except`. -/
def processEvent (now : String) (current_record : Option HistoryRecord)
    (record_id : String) (acc : BatchAcc) (e : CDCEvent) :
    Except Unit BatchAcc :=
  match e.event_type with
  | some "INSERT" =>
      let rec_ := create_history_record now record_id e.after
        e.event_timestamp "INSERT" [] true Option.none
      Except.ok { acc with
        new_history_records := acc.new_history_records ++ [rec_]
        stats := { acc.stats with
          records_inserted := acc.stats.records_inserted + 1 } }
  | some "UPDATE" =>
      match e.before, e.after with
      | some before_data, some after_data =>
          let changes := detect_changes before_data after_data Option.none
          if changes.has_changes then
            let acc1 :=
              if current_record.isSome then
                { acc with records_to_close := acc.records_to_close ++
                    [{ record_id := record_id, valid_to := e.event_timestamp }] }
              else acc
            let rec_ := create_history_record now record_id (some after_data)
              e.event_timestamp "UPDATE" changes.changed_fields true Option.none
            Except.ok { acc1 with
              new_history_records := acc1.new_history_records ++ [rec_]
              stats := { acc1.stats with
                records_updated := acc1.stats.records_updated + 1 } }
          else Except.ok acc
      | _, _ => Except.error ()
  | some "DELETE" =>
      if current_record.isSome then
        Except.ok { acc with records_to_close := acc.records_to_close ++
          [{ record_id := record_id, valid_to := e.event_timestamp }] }
      else Except.ok acc
  | _ => Except.ok acc

/-- The per-group event loop.  On a raise, mutations made by earlier
events remain (the Python lists are mutated in place) and the loop stops;
the `Bool` reports whether the group raised. -/
def processGroupEvents (now : String) (current_record : Option HistoryRecord)
    (record_id : String) : List CDCEvent → BatchAcc → BatchAcc × Bool
  | [], acc => (acc, false)
  | e :: es, acc =>
      match processEvent now current_record record_id acc e with
      | Except.ok acc1 => processGroupEvents now current_record record_id es acc1
      | Except.error _ => (acc, true)

/-- One iteration of the per-group loop: fetch the current record, replay
the group's events, then either count the group as processed or count the
caught exception in `errors`. -/
def processGroup (now : String) (readFails : String → Bool) (store : Store)
    (acc : BatchAcc) (g : String × List CDCEvent) : BatchAcc :=
  let current_record := get_current_record readFails store g.1
  match processGroupEvents now current_record g.1 g.2 acc with
  | (acc1, false) =>
      { acc1 with stats := { acc1.stats with
          records_processed := acc1.stats.records_processed + 1 } }
  | (acc1, true) =>
      { acc1 with stats := { acc1.stats with
          errors := acc1.stats.errors + 1 } }

/-- The grouping-plus-replay phase of `process_hourly_changes`: all
groups processed against the pre-batch store, operations queued. -/
def batchPlan (now : String) (readFails : String → Bool) (store : Store)
    (events : List CDCEvent) : BatchAcc :=
  (group_events_by_record events).foldl (processGroup now readFails store)
    { new_history_records := []
      records_to_close := []
      stats := { total_events := events.length, records_processed := 0,
                 records_inserted := 0, records_updated := 0, errors := 0 } }

/-- Apply phase, closes: run each queued close in order; a close whose
store call raises (`closeFails` on its queue position) leaves the table
unchanged, `close_current_record` returns `False`, and the caller adds
one to `errors`. -/
def runCloses (closeFails : Nat → Bool) (store : Store)
    (closes : List CloseOp) : Store × Nat :=
  (closes.foldl
    (fun st c =>
      match st with
      | (s, errs, i) =>
          if closeFails i then (s, errs + 1, i + 1)
          else (close_current_record s c, errs, i + 1))
    (store, 0, 0)).map id Prod.fst

/-- Apply phase, inserts: `insert_history_records` is a no-op returning
`True` on an empty list; otherwise a failed bulk insert leaves the table
unchanged and the caller adds `len(new_history_records)` to `errors`. -/
def runInsert (insertFails : Bool) (store : Store)
    (records : List HistoryRecord) : Store × Nat :=
  if records = [] then (store, 0)
  else if insertFails then (store, records.length)
  else (store ++ records, 0)

/-- Embedding of `SCDType2Handler.process_hourly_changes` with the store
passed explicitly and the three store-failure oracles made parameters.
Returns the stats dict and the post-batch history table. -/
def process_hourly_changes_f (readFails : String → Bool)
    (closeFails : Nat → Bool) (insertFails : Bool) (now : String)
    (store : Store) (events : List CDCEvent) : Stats × Store :=
  let acc := batchPlan now readFails store events
  let closed := runCloses closeFails store acc.records_to_close
  let inserted := runInsert insertFails closed.1 acc.new_history_records
  ({ acc.stats with
      errors := acc.stats.errors + closed.2 + inserted.2 }, inserted.1)

/-- `process_hourly_changes` on a healthy store: no read, close or insert
failures. -/
def process_hourly_changes (now : String) (store : Store)
    (events : List CDCEvent) : Stats × Store :=
  process_hourly_changes_f (fun _ => false) (fun _ => false) false
    now store events

/-- Number of rows of the table that are current for a given key. -/
def currentCount (store : Store) (k : String) : Nat :=
  (store.filter (fun r => r.id == k && r.is_current)).length

/-! ### The event validator (`cdc_validators.CDCValidator`)

Events reaching the validator are raw parsed JSON objects; the embedding
types each of the keys the validator reads as a `PyVal`, with
`PyVal.noneV` standing for an absent key or an explicit JSON null (the
validator reads every key through `.get(..)`, which cannot tell the two
apart). -/

/-- A CDC event as seen by the validator. -/
structure PyEvent where
  event_type : PyVal
  object_type : PyVal
  record_id : PyVal
  event_timestamp : PyVal
  changed_fields : PyVal
  before : PyVal
  after : PyVal
deriving DecidableEq, Repr

/-- `CDCValidator.VALID_EVENT_TYPES`. -/
def VALID_EVENT_TYPES : List String := ["INSERT", "UPDATE", "DELETE"]

/-- `CDCValidator.VALID_OBJECT_TYPES`. -/
def VALID_OBJECT_TYPES : List String := ["Account", "Contact", "Opportunity", "Case"]

/-- Python rendering of a list of strings (for the enum error messages). -/
def pyStrListRepr (xs : List String) : String :=
  "[" ++ String.intercalate ", " (xs.map (fun s => "'" ++ s ++ "'")) ++ "]"

/-- The anchored Salesforce-id regex `^[a-zA-Z0-9]{15,18}$` applied with
`re.match`: a full match of 15–18 ASCII alphanumerics, where Python's `$`
also accepts one trailing newline. -/
def salesforce_id_match (s : String) : Bool :=
  let core := fun (cs : List Char) =>
    decide (15 ≤ cs.length) && decide (cs.length ≤ 18) &&
      cs.all (fun c => c.isAlpha || c.isDigit)
  core s.data ||
    (match s.data.getLast? with
     | some c => c == '\n' && core s.data.dropLast
     | Option.none => false)

/-- `CDCValidator.REQUIRED_FIELDS`. -/
def REQUIRED_FIELDS : List (String × List String) :=
  [("Account", ["id", "name", "created_date", "last_modified_date"]),
   ("Contact", ["id", "first_name", "last_name", "created_date", "last_modified_date"]),
   ("Opportunity", ["id", "name", "stage_name", "created_date", "last_modified_date"]),
   ("Case", ["id", "subject", "status", "created_date", "last_modified_date"])]

/-- Expected type of one field: the tuples of Python classes appearing in
`CDCValidator.FIELD_TYPES`.  `NoneType` members are dropped because the
type check skips `None` values anyway. -/
inductive FieldTy where
  | tyStr
  | tyNum
  | tyBool
deriving DecidableEq, Repr

/-- Python `isinstance(value, expected_type)` for non-`None` scalars;
`bool` is a subclass of `int`, so booleans satisfy the numeric tuple. -/
def tyMatches : FieldTy → PyPrim → Bool
  | FieldTy.tyStr, PyPrim.str _ => true
  | FieldTy.tyNum, PyPrim.int _ => true
  | FieldTy.tyNum, PyPrim.bool _ => true
  | FieldTy.tyBool, PyPrim.bool _ => true
  | _, _ => false

/-- Rendering of the expected-type tuple inside the type error message
(schematic: the CPython `repr` of the class tuple). -/
def FieldTy.msg : FieldTy → String
  | FieldTy.tyStr => "<class 'str'>"
  | FieldTy.tyNum => "(<class 'int'>, <class 'float'>)"
  | FieldTy.tyBool => "<class 'bool'>"

/-- Python `type(value).__name__` for the scalars of the model. -/
def PyPrim.typeName : PyPrim → String
  | PyPrim.none => "NoneType"
  | PyPrim.bool _ => "bool"
  | PyPrim.int _ => "int"
  | PyPrim.str _ => "str"

/-- `CDCValidator.FIELD_TYPES`, keyed by object type, in source order. -/
def FIELD_TYPES : List (String × List (String × FieldTy)) :=
  [("Account",
    [("id", FieldTy.tyStr), ("name", FieldTy.tyStr), ("type", FieldTy.tyStr),
     ("industry", FieldTy.tyStr), ("annual_revenue", FieldTy.tyNum),
     ("phone", FieldTy.tyStr), ("website", FieldTy.tyStr),
     ("created_date", FieldTy.tyStr), ("last_modified_date", FieldTy.tyStr)]),
   ("Contact",
    [("id", FieldTy.tyStr), ("account_id", FieldTy.tyStr),
     ("first_name", FieldTy.tyStr), ("last_name", FieldTy.tyStr),
     ("email", FieldTy.tyStr), ("phone", FieldTy.tyStr), ("title", FieldTy.tyStr),
     ("created_date", FieldTy.tyStr), ("last_modified_date", FieldTy.tyStr)]),
   ("Opportunity",
    [("id", FieldTy.tyStr), ("account_id", FieldTy.tyStr), ("name", FieldTy.tyStr),
     ("stage_name", FieldTy.tyStr), ("amount", FieldTy.tyNum),
     ("probability", FieldTy.tyNum), ("close_date", FieldTy.tyStr),
     ("is_won", FieldTy.tyBool), ("is_closed", FieldTy.tyBool),
     ("created_date", FieldTy.tyStr), ("last_modified_date", FieldTy.tyStr)]),
   ("Case",
    [("id", FieldTy.tyStr), ("account_id", FieldTy.tyStr),
     ("contact_id", FieldTy.tyStr), ("subject", FieldTy.tyStr),
     ("description", FieldTy.tyStr), ("status", FieldTy.tyStr),
     ("origin", FieldTy.tyStr), ("priority", FieldTy.tyStr),
     ("is_escalated", FieldTy.tyBool), ("is_closed", FieldTy.tyBool),
     ("created_date", FieldTy.tyStr), ("last_modified_date", FieldTy.tyStr)])]

/-- Embedding of `CDCValidator.validate_event_type`. -/
def validate_event_type (e : PyEvent) : Bool × Option String :=
  if e.event_type = PyVal.noneV then
    (false, some "Missing required field: event_type")
  else if (VALID_EVENT_TYPES.map (fun s => PyVal.prim (PyPrim.str s))).contains
      e.event_type then
    (true, Option.none)
  else
    (false, some ("Invalid event_type: '" ++ e.event_type.pyStr ++
      "'. Must be one of " ++ pyStrListRepr VALID_EVENT_TYPES))

/-- Embedding of `CDCValidator.validate_object_type`. -/
def validate_object_type (e : PyEvent) : Bool × Option String :=
  if e.object_type = PyVal.noneV then
    (false, some "Missing required field: object_type")
  else if (VALID_OBJECT_TYPES.map (fun s => PyVal.prim (PyPrim.str s))).contains
      e.object_type then
    (true, Option.none)
  else
    (false, some ("Invalid object_type: '" ++ e.object_type.pyStr ++
      "'. Must be one of " ++ pyStrListRepr VALID_OBJECT_TYPES))

/-- Embedding of `CDCValidator.validate_record_id_format`. -/
def validate_record_id_format (e : PyEvent) : Bool × Option String :=
  if e.record_id = PyVal.noneV then
    (false, some "Missing required field: record_id")
  else if salesforce_id_match e.record_id.pyStr then (true, Option.none)
  else
    (false, some ("Invalid record_id format: '" ++ e.record_id.pyStr ++
      "'. Must be 15-18 alphanumeric characters"))

/-- Clock-dependent behaviour of the timestamp check, threaded as an
oracle: whether `datetime.fromisoformat` accepts a string, and the
`now`-relative position of the parsed instant.  `age_days` is the
`(now - ts).days` value. -/
structure ClockOracle where
  parse_ok : String → Bool
  in_future : String → Bool
  age_days : String → Int

/-- Embedding of `CDCValidator.validate_timestamp_format`.  Both `try`
blocks of the source catch every exception their bodies can raise (a
non-string timestamp raises `AttributeError` on `.replace`, an
unparseable string raises `ValueError`), so the embedding is total. -/
def validate_timestamp_format (o : ClockOracle) (e : PyEvent) :
    Bool × Option String :=
  if e.event_timestamp = PyVal.noneV then
    (false, some "Missing required field: event_timestamp")
  else
    match e.event_timestamp with
    | PyVal.prim (PyPrim.str s) =>
        if !(o.parse_ok s) then
          (false, some ("Invalid event_timestamp format: '" ++ s ++
            "'. Must be ISO 8601 format"))
        else if o.in_future s then
          (false, some ("event_timestamp is in the future: '" ++ s ++ "'"))
        else if decide (o.age_days s > 365) then
          (false, some ("event_timestamp is too old: '" ++ s ++ "' (" ++
            toString (o.age_days s) ++ " days ago)"))
        else (true, Option.none)
    | v =>
        (false, some ("Invalid event_timestamp format: '" ++ v.pyStr ++
          "'. Must be ISO 8601 format"))

/-- Embedding of `CDCValidator.validate_changed_fields`. -/
def validate_changed_fields (e : PyEvent) : Bool × Option String :=
  if e.event_type = PyVal.prim (PyPrim.str "UPDATE") then
    match e.changed_fields with
    | PyVal.prim PyPrim.none =>
        (false, some "Missing 'changed_fields' for UPDATE event")
    | PyVal.list [] =>
        (false, some "'changed_fields' cannot be empty for UPDATE event")
    | PyVal.list (_ :: _) => (true, Option.none)
    | v =>
        (false, some ("'changed_fields' must be a list, got " ++
          (match v with
           | PyVal.prim p => p.typeName
           | PyVal.dict _ => "dict"
           | PyVal.list _ => "list")))
  else (true, Option.none)

/-- Embedding of `CDCValidator.validate_null_required_fields`.  The
`.error` results model the uncaught `TypeError` that `field not in
after_data` raises when `after` is a present, non-null, non-container
value; `before` is only compared against `None`, so it never raises. -/
def validate_null_required_fields (e : PyEvent) :
    Except Unit (Bool × List String) := do
  if !e.object_type.truthy then
    return (false, ["Cannot validate required fields without object_type"])
  if !e.event_type.truthy then
    return (false, ["Cannot validate required fields without event_type"])
  let mut errors : List String := []
  if e.event_type = PyVal.prim (PyPrim.str "INSERT") ∨
      e.event_type = PyVal.prim (PyPrim.str "UPDATE") then
    match e.after with
    | PyVal.prim PyPrim.none =>
        errors := errors ++ ["Missing 'after' data for " ++ e.event_type.pyStr ++
          " event"]
        return (false, errors)
    | PyVal.dict after_data =>
        let required_fields :=
          match e.object_type with
          | PyVal.prim (PyPrim.str ot) => (REQUIRED_FIELDS.lookup ot).getD []
          | _ => []
        errors := errors ++ required_fields.foldl
          (fun errs field =>
            if (after_data.lookup field).getD PyPrim.none = PyPrim.none then
              errs ++ ["Required field '" ++ field ++
                "' is null or missing in 'after' data"]
            else errs) []
    | _ => throw ()
  if e.event_type = PyVal.prim (PyPrim.str "UPDATE") ∨
      e.event_type = PyVal.prim (PyPrim.str "DELETE") then
    if e.before = PyVal.noneV then
      errors := errors ++ ["Missing 'before' data for " ++ e.event_type.pyStr ++
        " event"]
      return (false, errors)
  return (decide (errors = []), errors)

/-- Type errors of one snapshot side in `validate_field_types`. -/
def fieldTypeErrors (side : String) (expected : List (String × FieldTy))
    (data : List (String × PyPrim)) : List String :=
  expected.foldl
    (fun errs ft =>
      match data.lookup ft.1 with
      | some v =>
          if v ≠ PyPrim.none ∧ ¬ tyMatches ft.2 v then
            errs ++ ["Field '" ++ ft.1 ++ "' has wrong type in '" ++ side ++
              "': expected " ++ ft.2.msg ++ ", got " ++ v.typeName]
          else errs
      | Option.none => errs)
    []

/-- Embedding of `CDCValidator.validate_field_types`.  The `.error`
results model the `TypeError` of `field_name in after_data` when a
truthy, non-dict snapshot value is iterated. -/
def validate_field_types (e : PyEvent) : Except Unit (Bool × List String) := do
  let expected ←
    match e.object_type with
    | PyVal.prim (PyPrim.str ot) =>
        match FIELD_TYPES.lookup ot with
        | some m => pure m
        | Option.none => return (true, [])
    | _ => return (true, [])
  let mut errors : List String := []
  if e.after.truthy then
    match e.after with
    | PyVal.dict after_data => errors := errors ++ fieldTypeErrors "after" expected after_data
    | _ => throw ()
  if e.before.truthy then
    match e.before with
    | PyVal.dict before_data => errors := errors ++ fieldTypeErrors "before" expected before_data
    | _ => throw ()
  return (decide (errors = []), errors)

/-- Foreign-key fields by object type (`foreign_keys` in
`validate_foreign_keys`). -/
def FOREIGN_KEYS : List (String × List String) :=
  [("Contact", ["account_id"]),
   ("Opportunity", ["account_id"]),
   ("Case", ["account_id", "contact_id"])]

/-- Embedding of `CDCValidator.validate_foreign_keys`.  The `.error`
result models the `AttributeError` of `after_data.get` on a truthy
non-dict value. -/
def validate_foreign_keys (e : PyEvent) : Except Unit (Bool × List String) := do
  let fks ←
    match e.object_type with
    | PyVal.prim (PyPrim.str ot) =>
        match FOREIGN_KEYS.lookup ot with
        | some l => pure l
        | Option.none => return (true, [])
    | _ => return (true, [])
  let mut errors : List String := []
  if e.after.truthy then
    match e.after with
    | PyVal.dict after_data =>
        errors := errors ++ fks.foldl
          (fun errs fk_field =>
            match (after_data.lookup fk_field).getD PyPrim.none with
            | PyPrim.none => errs
            | v =>
                if !salesforce_id_match v.pyStr then
                  errs ++ ["Foreign key '" ++ fk_field ++
                    "' has invalid format: '" ++ v.pyStr ++ "'"]
                else errs) []
    | _ => throw ()
  return (decide (errors = []), errors)

/-- The running `validation_stats` dict of a `CDCValidator` instance. -/
structure VStats where
  total : Nat
  valid : Nat
  invalid : Nat
  error_types : List (String × Nat)
deriving DecidableEq, Repr

/-- A fresh validator's statistics. -/
def VStats.init : VStats := { total := 0, valid := 0, invalid := 0, error_types := [] }

/-- Python `d[k] = d.get(k, 0) + 1` on the `error_types` dict. -/
def bumpErrorType (k : String) : List (String × Nat) → List (String × Nat)
  | [] => [(k, 1)]
  | (k', n) :: rest =>
      if k' = k then (k', n + 1) :: rest else (k', n) :: bumpErrorType k rest

/-- Outcome of one of the five single-error validations inside
`validate_event`: append the error (if any) and bump its error type. -/
def applySingle (name : String) (r : Bool × Option String)
    (errors : List String) (stats : VStats) : List String × VStats :=
  match r with
  | (true, _) => (errors, stats)
  | (false, err) =>
      ((match err with
        | some m => errors ++ [m]
        | Option.none => errors ++ []),
       { stats with error_types := bumpErrorType name stats.error_types })

/-- Outcome of one of the three multi-error validations. -/
def applyMulti (name : String) (r : Bool × List String)
    (errors : List String) (stats : VStats) : List String × VStats :=
  match r with
  | (true, _) => (errors, stats)
  | (false, errs) =>
      (errors ++ errs,
       { stats with error_types := bumpErrorType name stats.error_types })

/-- Embedding of `CDCValidator.validate_event`: all checks run in source
order, their errors accumulated; the result pairs `(is_valid, errors)`
with the updated statistics.  An `.error` result propagates the uncaught
`TypeError`/`AttributeError` of the three snapshot-reading checks on a
present, non-null, non-mapping snapshot. -/
def validate_event (o : ClockOracle) (stats : VStats) (e : PyEvent) :
    Except Unit ((Bool × List String) × VStats) := do
  let stats0 := { stats with total := stats.total + 1 }
  let s1 := applySingle "event_type" (validate_event_type e) [] stats0
  let s2 := applySingle "object_type" (validate_object_type e) s1.1 s1.2
  let s3 := applySingle "record_id" (validate_record_id_format e) s2.1 s2.2
  let s4 := applySingle "timestamp" (validate_timestamp_format o e) s3.1 s3.2
  let s5 := applySingle "changed_fields" (validate_changed_fields e) s4.1 s4.2
  let rNull ← validate_null_required_fields e
  let s6 := applyMulti "null_fields" rNull s5.1 s5.2
  let rTypes ← validate_field_types e
  let s7 := applyMulti "field_types" rTypes s6.1 s6.2
  let rFk ← validate_foreign_keys e
  let s8 := applyMulti "foreign_keys" rFk s7.1 s7.2
  let statsF :=
    if s8.1 = [] then { s8.2 with valid := s8.2.valid + 1 }
    else { s8.2 with invalid := s8.2.invalid + 1 }
  return ((decide (s8.1 = []), s8.1), statsF)

/-- Embedding of `CDCValidator.get_error_rate` (`invalid / total`, `0.0`
on an empty history).  The Python quotient is a float; the model uses
exact rationals, which agrees with the float comparison on the batch
sizes of the claims. -/
def get_error_rate (s : VStats) : ℚ :=
  if s.total = 0 then 0 else (s.invalid : ℚ) / (s.total : ℚ)

/-- Embedding of `CDCValidator.should_alert`
(`error_rate > alert_threshold`). -/
def should_alert (alert_threshold : ℚ) (s : VStats) : Bool :=
  decide (get_error_rate s > alert_threshold)

/-! ### Helper lemmas: change detection -/

/-- The field loop of `detect_changes` leaves its accumulator untouched
when every examined field compares equal. -/
lemma detectStep_foldl_of_agree (b a : Snapshot) (l : List String)
    (acc : Changes) (h : ∀ f ∈ l, sget b f = sget a f) :
    l.foldl (detectStep b a) acc = acc := by
  induction l generalizing acc with
  | nil => rfl
  | cons f fs ih =>
      have hf : sget b f = sget a f := h f (List.mem_cons_self f fs)
      have hstep : detectStep b a acc f = acc := by
        simp [detectStep, hf]
      rw [List.foldl_cons, hstep]
      exact ih acc (fun g hg => h g (List.mem_cons_of_mem f hg))

/-- Snapshots agreeing outside the metadata fields produce an empty
change set. -/
lemma detect_changes_of_agree (b a : Snapshot)
    (h : ∀ f, f ∉ metadata_fields → sget b f = sget a f) :
    detect_changes b a Option.none =
      { has_changes := false, changed_fields := [], field_changes := [] } := by
  unfold detect_changes
  apply detectStep_foldl_of_agree
  intro f hf
  have hmem := List.of_mem_filter hf
  have : ¬ f ∈ metadata_fields := by
    simpa using hmem
  exact h f this

/-! ### Claim C7 -/

/-- C7: for every snapshot `s`, `detect_changes s s` reports
`has_changes = false` with empty `changed_fields`; and whenever two
snapshots agree on every field outside the bookkeeping/metadata set
(`ingestion_timestamp`, `source`, the `_cdc_*`/`_pubsub_*`/`_processing_*`
keys and `system_modstamp`), `detect_changes` reports
`has_changes = false`. -/
theorem C7_detect_changes_reflexive_and_metadata_blind :
    (∀ s : Snapshot, detect_changes s s Option.none =
      { has_changes := false, changed_fields := [], field_changes := [] }) ∧
    (∀ b a : Snapshot,
      (∀ f, f ∉ metadata_fields → sget b f = sget a f) →
      (detect_changes b a Option.none).has_changes = false) := by
  constructor
  · intro s
    exact detect_changes_of_agree s s (fun f _ => rfl)
  · intro b a h
    rw [detect_changes_of_agree b a h]

/-- Witness for C7: the metadata-blindness part applied to two snapshots
that differ only in `ingestion_timestamp`. -/
theorem C7_witness :
    (detect_changes [("ingestion_timestamp", PyPrim.str "2025-01-01")]
      [("ingestion_timestamp", PyPrim.str "2025-01-02")] Option.none).has_changes
      = false := by
  apply C7_detect_changes_reflexive_and_metadata_blind.2
  intro f hf
  by_cases h : f = "ingestion_timestamp"
  · subst h
    exact absurd (by decide) hf
  · have hb : (f == "ingestion_timestamp") = false := by
      exact beq_false_of_ne h
    simp [sget, List.lookup, hb]

/-! ### Claim C8 -/

/-- C8: a batch consisting of one UPDATE event whose `before` and `after`
snapshots agree on all non-bookkeeping fields creates no history record
and queues no close operation, and the returned statistics report
`records_updated = 0` and `records_processed = 1` (so the store is
returned unchanged). -/
theorem C8_unchanged_update_is_noop (now t k : String) (b a : Snapshot)
    (store : Store) (hk : k ≠ "")
    (h : ∀ f, f ∉ metadata_fields → sget b f = sget a f) :
    (batchPlan now (fun _ => false) store
      [{ event_type := some "UPDATE", event_timestamp := some t,
         record_id := some k, before := some b, after := some a }]).new_history_records = [] ∧
    (batchPlan now (fun _ => false) store
      [{ event_type := some "UPDATE", event_timestamp := some t,
         record_id := some k, before := some b, after := some a }]).records_to_close = [] ∧
    process_hourly_changes now store
      [{ event_type := some "UPDATE", event_timestamp := some t,
         record_id := some k, before := some b, after := some a }] =
      ({ total_events := 1, records_processed := 1, records_inserted := 0,
         records_updated := 0, errors := 0 }, store) := by
  have hch := detect_changes_of_agree b a h
  refine ⟨?_, ?_, ?_⟩ <;>
    simp [process_hourly_changes, process_hourly_changes_f, batchPlan,
      group_events_by_record, groupFold, addToGroup, insertionSortB,
      orderedInsertB, processGroup, processGroupEvents, processEvent, hch, hk,
      runCloses, runInsert]

/-- Witness for C8 at a concrete unchanged UPDATE event. -/
theorem C8_witness :
    (process_hourly_changes "2025-01-02T00:00:00Z" []
      [{ event_type := some "UPDATE", event_timestamp := some "2025-01-01T00:00:00Z",
         record_id := some "001AAAAAAAAAAAA",
         before := some [("id", PyPrim.str "001AAAAAAAAAAAA")],
         after := some [("id", PyPrim.str "001AAAAAAAAAAAA")] }]) =
      ({ total_events := 1, records_processed := 1, records_inserted := 0,
         records_updated := 0, errors := 0 }, []) :=
  (C8_unchanged_update_is_noop "2025-01-02T00:00:00Z" "2025-01-01T00:00:00Z"
    "001AAAAAAAAAAAA" [("id", PyPrim.str "001AAAAAAAAAAAA")]
    [("id", PyPrim.str "001AAAAAAAAAAAA")] [] (by decide)
    (fun f _ => rfl)).2.2

/-! ### Helper lemmas: grouping -/

/-- Events with a falsy `record_id` are skipped by the grouping fold, so
grouping a batch equals grouping the batch with those events removed. -/
lemma groupFold_filter_keep (events : List CDCEvent) :
    groupFold events = groupFold (events.filter keepEvent) := by
  unfold groupFold
  suffices h : ∀ acc : List (String × List CDCEvent),
      events.foldl
        (fun acc e =>
          match e.record_id with
          | some k => if k = "" then acc else addToGroup k e acc
          | Option.none => acc) acc =
      (events.filter keepEvent).foldl
        (fun acc e =>
          match e.record_id with
          | some k => if k = "" then acc else addToGroup k e acc
          | Option.none => acc) acc from h _
  induction events with
  | nil => intro acc; rfl
  | cons e es ih =>
      intro acc
      by_cases hk : keepEvent e = true
      · rw [List.filter_cons_of_pos hk]
        rw [List.foldl_cons, List.foldl_cons]
        exact ih _
      · rw [List.filter_cons_of_neg hk]
        have hskip :
            (match e.record_id with
             | some k => if k = "" then acc else addToGroup k e acc
             | Option.none => acc) = acc := by
          unfold keepEvent at hk
          match h : e.record_id with
          | Option.none => simp
          | some k =>
              rw [h] at hk
              simp at hk
              simp [hk]
        rw [List.foldl_cons, hskip]
        exact ih _

/-- Grouping ignores events with a falsy `record_id`. -/
lemma group_events_filter_keep (events : List CDCEvent) :
    group_events_by_record events = group_events_by_record (events.filter keepEvent) := by
  unfold group_events_by_record
  rw [groupFold_filter_keep]

/-! ### Helper lemmas: the `total_events` counter is inert -/

/-- Overwrite the `total_events` field of an accumulator's stats. -/
def withTotal (n : Nat) (a : BatchAcc) : BatchAcc :=
  { a with stats := { a.stats with total_events := n } }

/-- `processEvent` never reads or writes `stats.total_events`. -/
lemma processEvent_total_inert (now : String) (cur : Option HistoryRecord)
    (rid : String) (acc : BatchAcc) (e : CDCEvent) (n : Nat) :
    processEvent now cur rid (withTotal n acc) e =
    Except.map (withTotal n) (processEvent now cur rid acc e) := by
  unfold withTotal processEvent
  repeat' split
  all_goals try simp [Except.map]
  all_goals (split <;> simp [Except.map])

/-- The per-group event loop never reads or writes `stats.total_events`. -/
lemma processGroupEvents_total_inert (now : String) (cur : Option HistoryRecord)
    (rid : String) (es : List CDCEvent) (acc : BatchAcc) (n : Nat) :
    processGroupEvents now cur rid es (withTotal n acc) =
    (fun r => (withTotal n r.1, r.2)) (processGroupEvents now cur rid es acc) := by
  induction es generalizing acc with
  | nil => rfl
  | cons e es ih =>
      simp only [processGroupEvents, processEvent_total_inert now cur rid acc e n]
      cases h : processEvent now cur rid acc e with
      | ok acc1 =>
          simpa [Except.map] using ih acc1
      | error u => simp [Except.map]

/-- The per-group loop body never reads or writes `stats.total_events`. -/
lemma processGroup_total_inert (now : String) (readFails : String → Bool)
    (store : Store) (acc : BatchAcc) (g : String × List CDCEvent) (n : Nat) :
    processGroup now readFails store (withTotal n acc) g =
    withTotal n (processGroup now readFails store acc g) := by
  simp only [processGroup,
    processGroupEvents_total_inert now (get_current_record readFails store g.1) g.1 g.2 acc n]
  cases h : processGroupEvents now (get_current_record readFails store g.1) g.1 g.2 acc with
  | mk acc1 raised => cases raised <;> simp [withTotal]

/-- The group fold never reads or writes `stats.total_events`. -/
lemma foldl_processGroup_total_inert (now : String) (readFails : String → Bool)
    (store : Store) (gs : List (String × List CDCEvent)) (acc : BatchAcc) (n : Nat) :
    gs.foldl (processGroup now readFails store) (withTotal n acc) =
    withTotal n (gs.foldl (processGroup now readFails store) acc) := by
  induction gs generalizing acc with
  | nil => rfl
  | cons g gs ih =>
      rw [List.foldl_cons, List.foldl_cons, processGroup_total_inert]
      exact ih _

/-- The planning phase of a batch equals the planning phase of the batch
with falsy-`record_id` events removed, up to the `total_events` count. -/
lemma batchPlan_filter_keep (now : String) (rf : String → Bool)
    (store : Store) (events : List CDCEvent) :
    batchPlan now rf store events =
    withTotal events.length (batchPlan now rf store (events.filter keepEvent)) := by
  unfold batchPlan
  rw [group_events_filter_keep]
  exact foldl_processGroup_total_inert now rf store
    (group_events_by_record (events.filter keepEvent))
    { new_history_records := [], records_to_close := [],
      stats := { total_events := (events.filter keepEvent).length,
                 records_processed := 0, records_inserted := 0,
                 records_updated := 0, errors := 0 } }
    events.length

/-! ### Claim C10 -/

/-- C10: events whose `record_id` is missing or empty are silently
excluded from grouping: the run on any batch equals the run on the batch
with those events removed, except that `total_events` still counts them;
in particular they contribute nothing to the other counters and cause no
store operation. -/
theorem C10_falsy_record_id_events_dropped (now : String) (store : Store)
    (events : List CDCEvent) :
    process_hourly_changes now store events =
      ({ (process_hourly_changes now store (events.filter keepEvent)).1 with
          total_events := events.length },
        (process_hourly_changes now store (events.filter keepEvent)).2) := by
  unfold process_hourly_changes process_hourly_changes_f
  rw [batchPlan_filter_keep]
  simp [withTotal]

/-! ### Helper lemmas: string order and close operations -/

/-- Asymmetry of the code-point order on char lists. -/
lemma chLt_asymm (a b : List Char) (h : chLt a b = true) : chLt b a = false := by
  induction a generalizing b with
  | nil =>
      cases b with
      | nil => simp [chLt] at h
      | cons y ys => simp [chLt]
  | cons x xs ih =>
      cases b with
      | nil => simp [chLt] at h
      | cons y ys =>
          by_cases h1 : x.toNat < y.toNat
          · have h2 : ¬ y.toNat < x.toNat := Nat.lt_asymm h1
            simp [chLt, h1, h2]
          · by_cases h2 : y.toNat < x.toNat
            · simp [chLt, h1, h2] at h
            · simp [chLt, h1, h2] at h ⊢
              exact ih ys h

/-- Asymmetry of the Python string order. -/
lemma strLt_asymm (a b : String) (h : strLt a b = true) : strLt b a = false :=
  chLt_asymm a.data b.data h

/-- A close operation on a key with no current row leaves the table
unchanged. -/
lemma close_current_record_of_no_current (s : Store) (c : CloseOp)
    (h : (s.filter (fun r => r.id == c.record_id && r.is_current)).head? = Option.none) :
    close_current_record s c = s := by
  have hfilter : s.filter (fun r => r.id == c.record_id && r.is_current) = [] :=
    List.head?_eq_none_iff.mp h
  have hnone : ∀ r ∈ s, (r.id == c.record_id && r.is_current) = false := by
    intro r hr
    by_contra hc
    have hc1 : (r.id == c.record_id && r.is_current) = true := by
      revert hc
      cases r.id == c.record_id && r.is_current <;> simp
    have hmem : r ∈ s.filter (fun r => r.id == c.record_id && r.is_current) :=
      List.mem_filter.mpr ⟨hr, hc1⟩
    rw [hfilter] at hmem
    simp at hmem
  unfold close_current_record
  have hcongr : s.map (fun r =>
      if r.id == c.record_id && r.is_current then
        { r with valid_to := c.valid_to, is_current := false }
      else r) = s.map id := by
    apply List.map_congr_left
    intro r hr
    simp [hnone r hr]
  rw [hcongr, List.map_id]

/-- Closing the same key twice equals closing it once: the first close
leaves no current row for the key. -/
lemma close_current_record_idem (s : Store) (c : CloseOp) (vt : Option String) :
    close_current_record (close_current_record s c)
      { record_id := c.record_id, valid_to := vt } = close_current_record s c := by
  unfold close_current_record
  rw [List.map_map]
  apply List.map_congr_left
  intro r hr
  by_cases hc : (r.id == c.record_id && r.is_current) = true
  · simp [Function.comp, hc]
  · simp [Function.comp, hc]

/-! ### Claim C2 -/

/-- Counterexample for C2: a store holding one current record for the key
(opened at T1) and a batch of two field-changing UPDATE events at
T2 < T3.  After the batch, the first new record (valid_from = T2) is
still open (`valid_to = none`, `is_current = true`) — it is not closed by
the second — and the key has two current records instead of a sole one,
although `records_updated = 2` as claimed. -/
theorem C2_counterexample :
    (let u := fun (t n1 n2 : String) =>
      ({ event_type := some "UPDATE", event_timestamp := some t,
         record_id := some "001AAAAAAAAAAAA",
         before := some [("id", PyPrim.str "001AAAAAAAAAAAA"), ("name", PyPrim.str n1)],
         after := some [("id", PyPrim.str "001AAAAAAAAAAAA"), ("name", PyPrim.str n2)] } : CDCEvent)
     let pre : HistoryRecord :=
      { id := "001AAAAAAAAAAAA", valid_from := some "2025-01-01T00:00:00Z",
        valid_to := Option.none, is_current := true, change_type := "INSERT",
        changed_fields := [], record_data := Option.none,
        ingestion_timestamp := "2025-01-01T00:00:01Z" }
     let res := process_hourly_changes "2025-01-03T00:00:00Z" [pre]
       [u "2025-01-02T00:00:00Z" "Acme" "Acme Corp",
        u "2025-01-02T01:00:00Z" "Acme Corp" "Acme Inc"]
     res.1.records_updated = 2 ∧
       (res.2.filter (fun r => r.valid_from == some "2025-01-02T00:00:00Z")).all
         (fun r => r.is_current && r.valid_to == Option.none) = true ∧
       currentCount res.2 "001AAAAAAAAAAAA" = 2) := by
  decide

/-- C2 amended: a batch of two field-changing UPDATE events for the same
key at T2 < T3 yields `records_updated = 2` and appends two new history
records with `valid_from = T2` and `valid_from = T3`; any pre-existing
current record for the key is closed with `valid_to = T2`; but the first
new record is NOT closed by the second — both new records are appended
with `is_current = true` and `valid_to = null` (closes are applied before
inserts and only against rows already in the store). -/
theorem C2_two_updates_amended (now k T2 T3 : String) (b2 a2 b3 a3 : Snapshot)
    (store : Store) (hk : k ≠ "") (hT : strLt T2 T3 = true)
    (h2 : (detect_changes b2 a2 Option.none).has_changes = true)
    (h3 : (detect_changes b3 a3 Option.none).has_changes = true) :
    process_hourly_changes now store
      [{ event_type := some "UPDATE", event_timestamp := some T2,
         record_id := some k, before := some b2, after := some a2 },
       { event_type := some "UPDATE", event_timestamp := some T3,
         record_id := some k, before := some b3, after := some a3 }] =
      ({ total_events := 2, records_processed := 1, records_inserted := 0,
         records_updated := 2, errors := 0 },
        close_current_record store { record_id := k, valid_to := some T2 } ++
          [create_history_record now k (some a2) (some T2) "UPDATE"
             (detect_changes b2 a2 Option.none).changed_fields true Option.none,
           create_history_record now k (some a3) (some T3) "UPDATE"
             (detect_changes b3 a3 Option.none).changed_fields true Option.none]) := by
  have hT32 : strLt T3 T2 = false := strLt_asymm T2 T3 hT
  have hle : eventLe
      { event_type := some "UPDATE", event_timestamp := some T2,
        record_id := some k, before := some b2, after := some a2 }
      { event_type := some "UPDATE", event_timestamp := some T3,
        record_id := some k, before := some b3, after := some a3 } = true := by
    simp [eventLe, eventSortKey, strLe, hT32]
  cases hcur : (store.filter (fun r => r.id == k && r.is_current)).head? with
  | none =>
      have hclose := close_current_record_of_no_current store
        { record_id := k, valid_to := some T2 } hcur
      simp [process_hourly_changes, process_hourly_changes_f, batchPlan,
        group_events_by_record, groupFold, addToGroup, insertionSortB,
        orderedInsertB, hle, processGroup, processGroupEvents, processEvent,
        get_current_record, hcur, hk, h2, h3, runCloses, runInsert, hclose]
  | some cr =>
      simp [process_hourly_changes, process_hourly_changes_f, batchPlan,
        group_events_by_record, groupFold, addToGroup, insertionSortB,
        orderedInsertB, hle, processGroup, processGroupEvents, processEvent,
        get_current_record, hcur, hk, h2, h3, runCloses, runInsert]
      exact close_current_record_idem store
        { record_id := k, valid_to := some T2 } (some T3)

/-- Witness for C2's amended theorem at concrete inputs. -/
theorem C2_witness :
    process_hourly_changes "2025-01-03T00:00:00Z" []
      [{ event_type := some "UPDATE", event_timestamp := some "2025-01-02T00:00:00Z",
         record_id := some "001AAAAAAAAAAAA",
         before := some [("name", PyPrim.str "Acme")],
         after := some [("name", PyPrim.str "Acme Corp")] },
       { event_type := some "UPDATE", event_timestamp := some "2025-01-02T01:00:00Z",
         record_id := some "001AAAAAAAAAAAA",
         before := some [("name", PyPrim.str "Acme Corp")],
         after := some [("name", PyPrim.str "Acme Inc")] }] =
      ({ total_events := 2, records_processed := 1, records_inserted := 0,
         records_updated := 2, errors := 0 },
        close_current_record [] { record_id := "001AAAAAAAAAAAA", valid_to := some "2025-01-02T00:00:00Z" } ++
          [create_history_record "2025-01-03T00:00:00Z" "001AAAAAAAAAAAA"
             (some [("name", PyPrim.str "Acme Corp")]) (some "2025-01-02T00:00:00Z") "UPDATE"
             (detect_changes [("name", PyPrim.str "Acme")] [("name", PyPrim.str "Acme Corp")] Option.none).changed_fields
             true Option.none,
           create_history_record "2025-01-03T00:00:00Z" "001AAAAAAAAAAAA"
             (some [("name", PyPrim.str "Acme Inc")]) (some "2025-01-02T01:00:00Z") "UPDATE"
             (detect_changes [("name", PyPrim.str "Acme Corp")] [("name", PyPrim.str "Acme Inc")] Option.none).changed_fields
             true Option.none]) :=
  C2_two_updates_amended "2025-01-03T00:00:00Z" "001AAAAAAAAAAAA"
    "2025-01-02T00:00:00Z" "2025-01-02T01:00:00Z"
    [("name", PyPrim.str "Acme")] [("name", PyPrim.str "Acme Corp")]
    [("name", PyPrim.str "Acme Corp")] [("name", PyPrim.str "Acme Inc")]
    [] (by decide) (by decide) (by decide) (by decide)

/-! ### Helper lemmas: the stable sort is a permutation -/

/-- Ordered insertion permutes to consing. -/
lemma orderedInsertB_perm (le : α → α → Bool) (a : α) (l : List α) :
    (orderedInsertB le a l).Perm (a :: l) := by
  induction l with
  | nil => simp [orderedInsertB]
  | cons b bs ih =>
      by_cases h : le a b = true
      · simp [orderedInsertB, h]
      · simp only [orderedInsertB, h]
        exact (List.Perm.cons b ih).trans (List.Perm.swap a b bs)

/-- The stable insertion sort permutes its input. -/
lemma insertionSortB_perm (le : α → α → Bool) (l : List α) :
    (insertionSortB le l).Perm l := by
  induction l with
  | nil => simp [insertionSortB]
  | cons a as ih =>
      exact (orderedInsertB_perm le a _).trans (List.Perm.cons a ih)

/-- Membership is preserved by the stable sort. -/
lemma mem_insertionSortB (le : α → α → Bool) (l : List α) (a : α) :
    a ∈ insertionSortB le l ↔ a ∈ l :=
  (insertionSortB_perm le l).mem_iff

/-! ### Helper lemmas: structure of the grouping fold -/

/-- All events held by the groups of an association list. -/
def groupsJoin (l : List (String × List CDCEvent)) : List CDCEvent :=
  (l.map Prod.snd).flatten

/-- Shape of `addToGroup`: each resulting group is an untouched group, the
extended group of the key, or the fresh singleton group. -/
lemma addToGroup_cases (k : String) (e : CDCEvent)
    (acc : List (String × List CDCEvent)) :
    ∀ g ∈ addToGroup k e acc,
      g ∈ acc ∨ (∃ es, (k, es) ∈ acc ∧ g = (k, es ++ [e])) ∨ g = (k, [e]) := by
  induction acc with
  | nil =>
      intro g hg
      simp [addToGroup] at hg
      exact Or.inr (Or.inr hg)
  | cons p rest ih =>
      intro g hg
      rcases p with ⟨k1, es1⟩
      by_cases hk : k1 = k
      · subst hk
        simp only [addToGroup, if_pos rfl] at hg
        rcases List.mem_cons.mp hg with hg | hg
        · exact Or.inr (Or.inl ⟨es1, List.mem_cons_self _ _, hg⟩)
        · exact Or.inl (List.mem_cons_of_mem _ hg)
      · simp only [addToGroup, if_neg hk] at hg
        rcases List.mem_cons.mp hg with hg | hg
        · exact Or.inl (by rw [hg] ; exact List.mem_cons_self _ _)
        · rcases ih g hg with h | h | h
          · exact Or.inl (List.mem_cons_of_mem _ h)
          · rcases h with ⟨es, hes, hgeq⟩
            exact Or.inr (Or.inl ⟨es, List.mem_cons_of_mem _ hes, hgeq⟩)
          · exact Or.inr (Or.inr h)

/-- Keys of `addToGroup`: unchanged when the key already exists, appended
otherwise. -/
lemma addToGroup_keys (k : String) (e : CDCEvent)
    (acc : List (String × List CDCEvent)) :
    (addToGroup k e acc).map Prod.fst =
      if k ∈ acc.map Prod.fst then acc.map Prod.fst
      else acc.map Prod.fst ++ [k] := by
  induction acc with
  | nil => simp [addToGroup]
  | cons p rest ih =>
      rcases p with ⟨k1, es1⟩
      by_cases hk : k1 = k
      · subst hk
        simp [addToGroup]
      · simp only [addToGroup, if_neg hk, List.map_cons]
        rw [ih]
        by_cases hmem : k ∈ rest.map Prod.fst
        · simp [hmem, Ne.symm hk]
        · simp [hmem, Ne.symm hk]

/-- The events of `addToGroup`'s groups are the old events plus the new
one, as a permutation. -/
lemma addToGroup_join_perm (k : String) (e : CDCEvent)
    (acc : List (String × List CDCEvent)) :
    (groupsJoin (addToGroup k e acc)).Perm (groupsJoin acc ++ [e]) := by
  induction acc with
  | nil => simp [addToGroup, groupsJoin]
  | cons p rest ih =>
      rcases p with ⟨k1, es1⟩
      by_cases hk : k1 = k
      · subst hk
        simp only [addToGroup, if_pos rfl, if_true, eq_self_iff_true, groupsJoin,
          List.map_cons, List.flatten_cons]
        rw [List.append_assoc, List.append_assoc]
        exact (List.perm_append_left_iff es1).mpr List.perm_append_comm
      · simp only [addToGroup, if_neg hk, groupsJoin, List.map_cons, List.flatten_cons]
        rw [List.append_assoc]
        exact (List.perm_append_left_iff es1).mpr ih

/-- Combined invariant of the grouping fold: every group's events carry
the group's key, the keys are distinct and truthy, and the groups hold
exactly the kept events (as a permutation). -/
lemma groupFold_invariant (events : List CDCEvent) :
    ∀ acc : List (String × List CDCEvent),
      (∀ g ∈ acc, (∀ e ∈ g.2, e.record_id = some g.1) ∧ g.1 ≠ "") →
      (acc.map Prod.fst).Nodup →
      (∀ g ∈ events.foldl
          (fun acc e =>
            match e.record_id with
            | some k => if k = "" then acc else addToGroup k e acc
            | Option.none => acc) acc,
        (∀ e ∈ g.2, e.record_id = some g.1) ∧ g.1 ≠ "") ∧
      ((events.foldl
          (fun acc e =>
            match e.record_id with
            | some k => if k = "" then acc else addToGroup k e acc
            | Option.none => acc) acc).map Prod.fst).Nodup ∧
      (groupsJoin (events.foldl
          (fun acc e =>
            match e.record_id with
            | some k => if k = "" then acc else addToGroup k e acc
            | Option.none => acc) acc)).Perm
        (groupsJoin acc ++ events.filter keepEvent) := by
  induction events with
  | nil =>
      intro acc h1 h2
      refine ⟨h1, h2, ?_⟩
      simp
  | cons e es ih =>
      intro acc h1 h2
      match hrid : e.record_id with
      | Option.none =>
          have hkeep : keepEvent e = false := by simp [keepEvent, hrid]
          simp only [List.foldl_cons, hrid, List.filter_cons, hkeep]
          simpa using ih acc h1 h2
      | some k =>
          by_cases hk : k = ""
          · have hkeep : keepEvent e = false := by simp [keepEvent, hrid, hk]
            simp only [List.foldl_cons, hrid, if_pos hk, List.filter_cons, hkeep]
            simpa using ih acc h1 h2
          · have hkeep : keepEvent e = true := by simp [keepEvent, hrid, hk]
            have h1a : ∀ g ∈ addToGroup k e acc,
                (∀ x ∈ g.2, x.record_id = some g.1) ∧ g.1 ≠ "" := by
              intro g hg
              rcases addToGroup_cases k e acc g hg with h | h | h
              · exact h1 g h
              · rcases h with ⟨es1, hes1, hgeq⟩
                subst hgeq
                refine ⟨?_, hk⟩
                intro x hx
                rcases List.mem_append.mp hx with hx | hx
                · exact ((h1 (k, es1) hes1).1 x hx)
                · rw [List.mem_singleton.mp hx, hrid]
              · subst h
                refine ⟨?_, hk⟩
                intro x hx
                rw [List.mem_singleton.mp hx, hrid]
            have h2a : ((addToGroup k e acc).map Prod.fst).Nodup := by
              rw [addToGroup_keys]
              by_cases hmem : k ∈ acc.map Prod.fst
              · simp [hmem, h2]
              · rw [if_neg hmem, List.nodup_append]
                exact ⟨h2, List.nodup_singleton k, by simpa using hmem⟩
            have hres := ih (addToGroup k e acc) h1a h2a
            refine ⟨?_, ?_, ?_⟩
            · intro g hg
              apply hres.1 g
              simpa [List.foldl_cons, hrid, hk] using hg
            · have := hres.2.1
              simpa [List.foldl_cons, hrid, hk] using this
            · have hp1 := hres.2.2
              have hp2 : (groupsJoin (addToGroup k e acc) ++ es.filter keepEvent).Perm
                  (groupsJoin acc ++ (e :: es).filter keepEvent) := by
                rw [List.filter_cons, if_pos hkeep]
                have step1 : (groupsJoin (addToGroup k e acc) ++
                    es.filter keepEvent).Perm
                    ((groupsJoin acc ++ [e]) ++ es.filter keepEvent) :=
                  List.Perm.append_right _ (addToGroup_join_perm k e acc)
                have step2 : (groupsJoin acc ++ [e]) ++ es.filter keepEvent =
                    groupsJoin acc ++ e :: es.filter keepEvent := by
                  rw [List.append_assoc]
                  rfl
                exact step2 ▸ step1
              have := hp1.trans hp2
              simpa [List.foldl_cons, hrid, hk] using this

/-- Every group of `group_events_by_record` owns exactly events carrying
its key, and its key is truthy. -/
lemma grouped_ownership (events : List CDCEvent) :
    ∀ g ∈ group_events_by_record events,
      (∀ e ∈ g.2, e.record_id = some g.1) ∧ g.1 ≠ "" := by
  intro g hg
  unfold group_events_by_record at hg
  rcases List.mem_map.mp hg with ⟨g0, hg0, hmap⟩
  have hbase := (groupFold_invariant events [] (by simp) (by simp)).1 g0 hg0
  subst hmap
  refine ⟨?_, hbase.2⟩
  intro e he
  exact hbase.1 e ((mem_insertionSortB eventLe g0.2 e).mp he)

/-- The group keys of `group_events_by_record` are distinct. -/
lemma grouped_keys_nodup (events : List CDCEvent) :
    ((group_events_by_record events).map Prod.fst).Nodup := by
  have hbase := (groupFold_invariant events [] (by simp) (by simp)).2.1
  unfold group_events_by_record
  rw [List.map_map]
  exact hbase

/-- The groups of `group_events_by_record` hold exactly the kept events,
as a permutation. -/
lemma grouped_join_perm (events : List CDCEvent) :
    (groupsJoin (group_events_by_record events)).Perm (events.filter keepEvent) := by
  have hbase := (groupFold_invariant events [] (by simp) (by simp)).2.2
  have hsort : (groupsJoin (group_events_by_record events)).Perm
      (groupsJoin (groupFold events)) := by
    unfold group_events_by_record groupsJoin
    generalize groupFold events = l
    induction l with
    | nil => simp
    | cons g l ih =>
        simp only [List.map_cons, List.flatten_cons]
        exact List.Perm.append (insertionSortB_perm eventLe g.2) ih
  exact hsort.trans (by simpa using hbase)

/-- Every event inside a group of `group_events_by_record` comes from the
batch. -/
lemma grouped_mem (events : List CDCEvent) (g : String × List CDCEvent)
    (hg : g ∈ group_events_by_record events) (e : CDCEvent) (he : e ∈ g.2) :
    e ∈ events := by
  have hjoin : e ∈ groupsJoin (group_events_by_record events) := by
    unfold groupsJoin
    rw [List.mem_flatten]
    exact ⟨g.2, List.mem_map.mpr ⟨g, hg, rfl⟩, he⟩
  have := (grouped_join_perm events).mem_iff.mp hjoin
  exact List.mem_of_mem_filter this

/-! ### Helper lemmas: error accounting of a batch run -/

/-- A CDC event whose per-event replay cannot raise: an UPDATE must carry
non-null `before` and `after` snapshots (`detect_changes` would raise on
null input; see `processEvent`). -/
def nonRaising (e : CDCEvent) : Prop :=
  e.event_type = some "UPDATE" → e.before ≠ Option.none ∧ e.after ≠ Option.none

/-- Whatever branch an event takes, a successful `processEvent` never
touches `errors` or `records_processed`. -/
lemma processEvent_preserves (now : String) (cur : Option HistoryRecord)
    (rid : String) (acc : BatchAcc) (e : CDCEvent) (acc1 : BatchAcc)
    (hok : processEvent now cur rid acc e = Except.ok acc1) :
    acc1.stats.errors = acc.stats.errors ∧
    acc1.stats.records_processed = acc.stats.records_processed := by
  unfold processEvent at hok
  repeat' split at hok
  all_goals try (simp only [Except.ok.injEq] at hok ; subst hok ; exact ⟨by simp, by simp⟩)
  all_goals try simp at hok
  all_goals (
    rename_i x1 het x2 x3 bd ad hb ha hcur
    by_cases hch : (detect_changes bd ad Option.none).has_changes = true
    · rw [if_pos hch] at hok
      simp only [Except.ok.injEq] at hok
      subst hok
      exact ⟨by simp, by simp⟩
    · rw [if_neg hch] at hok
      simp only [Except.ok.injEq] at hok
      subst hok
      exact ⟨by simp, by simp⟩)

/-- A non-raising event is processed to `ok`. -/
lemma processEvent_isOk_of_nonRaising (now : String) (cur : Option HistoryRecord)
    (rid : String) (acc : BatchAcc) (e : CDCEvent) (h : nonRaising e) :
    (processEvent now cur rid acc e).isOk = true := by
  by_cases hup : e.event_type = some "UPDATE"
  · rcases h hup with ⟨hb, ha⟩
    rcases hbo : e.before with _ | b
    · exact absurd hbo hb
    · rcases hao : e.after with _ | a
      · exact absurd hao ha
      · unfold processEvent
        rw [hup, hbo, hao]
        by_cases hch : (detect_changes b a Option.none).has_changes = true
        all_goals simp only [hch, if_true, if_false, eq_self_iff_true,
          Bool.false_eq_true, ite_true, ite_false]
        all_goals rfl
  · unfold processEvent
    repeat' split
    all_goals try (exact absurd (by assumption : e.event_type = some "UPDATE") hup)
    all_goals rfl

/-- A group of non-raising events replays without raising, never touching
`errors` or `records_processed`. -/
lemma processGroupEvents_ok_stats (now : String) (cur : Option HistoryRecord)
    (rid : String) (es : List CDCEvent) (acc : BatchAcc)
    (h : ∀ e ∈ es, nonRaising e) :
    (processGroupEvents now cur rid es acc).2 = false ∧
    (processGroupEvents now cur rid es acc).1.stats.errors = acc.stats.errors ∧
    (processGroupEvents now cur rid es acc).1.stats.records_processed
      = acc.stats.records_processed := by
  induction es generalizing acc with
  | nil => exact ⟨rfl, rfl, rfl⟩
  | cons e es ih =>
      have hisok := processEvent_isOk_of_nonRaising now cur rid acc e
        (h e (List.mem_cons_self e es))
      rcases hok2 : processEvent now cur rid acc e with u | acc1
      case error =>
        rw [hok2] at hisok
        exact Bool.noConfusion hisok
      have hok := hok2
      rcases processEvent_preserves now cur rid acc e acc1 hok with ⟨herr, hproc⟩
      have hrest := ih acc1 (fun x hx => h x (List.mem_cons_of_mem e hx))
      simp only [processGroupEvents, hok]
      exact ⟨hrest.1, hrest.2.1.trans herr, hrest.2.2.trans hproc⟩

/-- Processing one group of non-raising events counts it as processed and
adds no error. -/
lemma processGroup_ok_stats (now : String) (readFails : String → Bool)
    (store : Store) (acc : BatchAcc) (g : String × List CDCEvent)
    (h : ∀ e ∈ g.2, nonRaising e) :
    (processGroup now readFails store acc g).stats.errors = acc.stats.errors ∧
    (processGroup now readFails store acc g).stats.records_processed
      = acc.stats.records_processed + 1 := by
  simp only [processGroup]
  rcases processGroupEvents_ok_stats now
    (get_current_record readFails store g.1) g.1 g.2 acc h with ⟨hraise, herr, hproc⟩
  cases hev : processGroupEvents now (get_current_record readFails store g.1) g.1 g.2 acc with
  | mk acc1 raised =>
      rw [hev] at hraise herr hproc
      simp only at hraise herr hproc
      subst hraise
      exact ⟨herr, by simp [hproc]⟩

/-- Folding the per-group loop over groups of non-raising events counts
every group as processed and adds no error. -/
lemma foldl_processGroup_ok_stats (now : String) (readFails : String → Bool)
    (store : Store) (gs : List (String × List CDCEvent)) (acc : BatchAcc)
    (h : ∀ g ∈ gs, ∀ e ∈ g.2, nonRaising e) :
    (gs.foldl (processGroup now readFails store) acc).stats.errors
      = acc.stats.errors ∧
    (gs.foldl (processGroup now readFails store) acc).stats.records_processed
      = acc.stats.records_processed + gs.length := by
  induction gs generalizing acc with
  | nil => exact ⟨rfl, rfl⟩
  | cons g gs ih =>
      have hg := processGroup_ok_stats now readFails store acc g
        (h g (List.mem_cons_self g gs))
      have hrest := ih (processGroup now readFails store acc g)
        (fun x hx => h x (List.mem_cons_of_mem g hx))
      refine ⟨hrest.1.trans hg.1, ?_⟩
      rw [List.foldl_cons, hrest.2, hg.2]
      simp only [List.length_cons]
      omega

/-- The planning phase of a batch of non-raising events reports zero
errors and counts every group as processed. -/
lemma batchPlan_ok_stats (now : String) (readFails : String → Bool)
    (store : Store) (events : List CDCEvent)
    (h : ∀ e ∈ events, nonRaising e) :
    (batchPlan now readFails store events).stats.errors = 0 ∧
    (batchPlan now readFails store events).stats.records_processed
      = (group_events_by_record events).length := by
  unfold batchPlan
  have hgs : ∀ g ∈ group_events_by_record events, ∀ e ∈ g.2, nonRaising e :=
    fun g hg e he => h e (grouped_mem events g hg e he)
  have := foldl_processGroup_ok_stats now readFails store
    (group_events_by_record events)
    { new_history_records := [], records_to_close := [],
      stats := { total_events := events.length, records_processed := 0,
                 records_inserted := 0, records_updated := 0, errors := 0 } } hgs
  simpa using this

/-- Number of failing positions among the next `n` queue slots starting
at position `i` (the failed-close count of the apply phase). -/
def failedCount (cf : Nat → Bool) (i : Nat) : Nat → Nat
  | 0 => 0
  | n + 1 => (if cf i then 1 else 0) + failedCount cf (i + 1) n

/-- Error count of the close phase: one per failing queue position. -/
lemma runCloses_errs (cf : Nat → Bool) (closes : List CloseOp) :
    ∀ (s : Store) (e0 i0 : Nat),
      ((closes.foldl
        (fun st c =>
          match st with
          | (s, errs, i) =>
              if cf i then (s, errs + 1, i + 1)
              else (close_current_record s c, errs, i + 1))
        (s, e0, i0)).2).1 = e0 + failedCount cf i0 closes.length := by
  induction closes with
  | nil =>
      intro s e0 i0
      simp [failedCount]
  | cons c cs ih =>
      intro s e0 i0
      by_cases h : cf i0 = true
      · simp only [List.foldl_cons, h, if_true]
        rw [ih]
        simp [failedCount, h]
        omega
      · simp only [List.foldl_cons, h, if_false, Bool.false_eq_true]
        rw [ih]
        simp [failedCount, h]

/-- The `errors` contribution of the apply-phase closes. -/
lemma runCloses_snd (cf : Nat → Bool) (store : Store) (closes : List CloseOp) :
    (runCloses cf store closes).2 = failedCount cf 0 closes.length := by
  have h := runCloses_errs cf closes store 0 0
  cases hfold : closes.foldl
      (fun st c =>
        match st with
        | (s, errs, i) =>
            if cf i then (s, errs + 1, i + 1)
            else (close_current_record s c, errs, i + 1))
      (store, 0, 0) with
  | mk s1 p =>
      cases p with
      | mk errs i =>
          rw [hfold] at h
          simp only at h
          unfold runCloses
          rw [hfold]
          simpa using h

/-! ### Claim C4 -/

/-- Counterexample for C4: the store holds a current record for the key;
the batch is one field-changing UPDATE; the read of the current record
fails (raises) for every key.  The failure is swallowed inside
`get_current_record` (returned as "no current record"): the group is
still processed, no close is queued, and `errors` stays 0 instead of
being incremented for the group. -/
theorem C4_counterexample :
    (let ev : CDCEvent :=
      { event_type := some "UPDATE", event_timestamp := some "2025-01-02T00:00:00Z",
        record_id := some "001AAAAAAAAAAAA",
        before := some [("name", PyPrim.str "Acme")],
        after := some [("name", PyPrim.str "Acme Corp")] }
     let pre : HistoryRecord :=
      { id := "001AAAAAAAAAAAA", valid_from := some "2025-01-01T00:00:00Z",
        valid_to := Option.none, is_current := true, change_type := "INSERT",
        changed_fields := [], record_data := Option.none,
        ingestion_timestamp := "2025-01-01T00:00:01Z" }
     (process_hourly_changes_f (fun _ => true) (fun _ => false) false
        "2025-01-03T00:00:00Z" [pre] [ev]).1.errors = 0 ∧
       (batchPlan "2025-01-03T00:00:00Z" (fun _ => true) [pre] [ev]).records_to_close = [] ∧
       (process_hourly_changes_f (fun _ => true) (fun _ => false) false
        "2025-01-03T00:00:00Z" [pre] [ev]).1.records_processed = 1) := by
  decide

/-- C4 amended: a failed (raising) read of the current record is caught
inside `get_current_record` and treated as "no current record" WITHOUT
incrementing `errors`; each failed queued close adds one to `errors`; a
failed bulk insert adds the number of queued new records; and in all
cases every group is still processed to completion
(`records_processed` equals the number of groups).  Stated for batches
whose UPDATE events carry non-null snapshots (other batches additionally
count one error per group whose replay raises). -/
theorem C4_store_failure_accounting_amended (now : String)
    (readFails : String → Bool) (closeFails : Nat → Bool) (insertFails : Bool)
    (store : Store) (events : List CDCEvent)
    (h : ∀ e ∈ events, nonRaising e) :
    (∀ k, readFails k = true → get_current_record readFails store k = Option.none) ∧
    (process_hourly_changes_f readFails closeFails insertFails now store
        events).1.records_processed = (group_events_by_record events).length ∧
    (process_hourly_changes_f readFails closeFails insertFails now store
        events).1.errors =
      failedCount closeFails 0
          (batchPlan now readFails store events).records_to_close.length +
        (if insertFails = true ∧
            (batchPlan now readFails store events).new_history_records ≠ []
         then (batchPlan now readFails store events).new_history_records.length
         else 0) := by
  refine ⟨?_, ?_, ?_⟩
  · intro k hk
    simp [get_current_record, hk]
  · have := (batchPlan_ok_stats now readFails store events h).2
    simp only [process_hourly_changes_f]
    simpa using this
  · have herr := (batchPlan_ok_stats now readFails store events h).1
    simp only [process_hourly_changes_f]
    simp only [herr, runCloses_snd]
    unfold runInsert
    by_cases hnil : (batchPlan now readFails store events).new_history_records = []
    · simp [hnil]
    · by_cases hins : insertFails = true
      · simp [hnil, hins]
      · simp [hnil, hins]

/-- Witness for C4's amended theorem: one failing close and a failing
bulk insert of one record give exactly two errors, with the single group
still processed. -/
theorem C4_witness :
    (∀ k, (fun (_ : String) => false) k = true →
      get_current_record (fun _ => false)
        [{ id := "001AAAAAAAAAAAA", valid_from := some "2025-01-01T00:00:00Z",
           valid_to := Option.none, is_current := true, change_type := "INSERT",
           changed_fields := [], record_data := Option.none,
           ingestion_timestamp := "2025-01-01T00:00:01Z" }] k = Option.none) ∧
    (process_hourly_changes_f (fun _ => false) (fun _ => true) true
        "2025-01-03T00:00:00Z"
        [{ id := "001AAAAAAAAAAAA", valid_from := some "2025-01-01T00:00:00Z",
           valid_to := Option.none, is_current := true, change_type := "INSERT",
           changed_fields := [], record_data := Option.none,
           ingestion_timestamp := "2025-01-01T00:00:01Z" }]
        [{ event_type := some "UPDATE", event_timestamp := some "2025-01-02T00:00:00Z",
           record_id := some "001AAAAAAAAAAAA",
           before := some [("name", PyPrim.str "Acme")],
           after := some [("name", PyPrim.str "Acme Corp")] }]).1.records_processed
      = (group_events_by_record
          [{ event_type := some "UPDATE", event_timestamp := some "2025-01-02T00:00:00Z",
             record_id := some "001AAAAAAAAAAAA",
             before := some [("name", PyPrim.str "Acme")],
             after := some [("name", PyPrim.str "Acme Corp")] }]).length ∧
    (process_hourly_changes_f (fun _ => false) (fun _ => true) true
        "2025-01-03T00:00:00Z"
        [{ id := "001AAAAAAAAAAAA", valid_from := some "2025-01-01T00:00:00Z",
           valid_to := Option.none, is_current := true, change_type := "INSERT",
           changed_fields := [], record_data := Option.none,
           ingestion_timestamp := "2025-01-01T00:00:01Z" }]
        [{ event_type := some "UPDATE", event_timestamp := some "2025-01-02T00:00:00Z",
           record_id := some "001AAAAAAAAAAAA",
           before := some [("name", PyPrim.str "Acme")],
           after := some [("name", PyPrim.str "Acme Corp")] }]).1.errors =
      failedCount (fun _ => true) 0
          (batchPlan "2025-01-03T00:00:00Z" (fun _ => false)
            [{ id := "001AAAAAAAAAAAA", valid_from := some "2025-01-01T00:00:00Z",
               valid_to := Option.none, is_current := true, change_type := "INSERT",
               changed_fields := [], record_data := Option.none,
               ingestion_timestamp := "2025-01-01T00:00:01Z" }]
            [{ event_type := some "UPDATE", event_timestamp := some "2025-01-02T00:00:00Z",
               record_id := some "001AAAAAAAAAAAA",
               before := some [("name", PyPrim.str "Acme")],
               after := some [("name", PyPrim.str "Acme Corp")] }]).records_to_close.length +
        (if (true : Bool) = true ∧
            (batchPlan "2025-01-03T00:00:00Z" (fun _ => false)
              [{ id := "001AAAAAAAAAAAA", valid_from := some "2025-01-01T00:00:00Z",
                 valid_to := Option.none, is_current := true, change_type := "INSERT",
                 changed_fields := [], record_data := Option.none,
                 ingestion_timestamp := "2025-01-01T00:00:01Z" }]
              [{ event_type := some "UPDATE", event_timestamp := some "2025-01-02T00:00:00Z",
                 record_id := some "001AAAAAAAAAAAA",
                 before := some [("name", PyPrim.str "Acme")],
                 after := some [("name", PyPrim.str "Acme Corp")] }]).new_history_records ≠ []
         then (batchPlan "2025-01-03T00:00:00Z" (fun _ => false)
            [{ id := "001AAAAAAAAAAAA", valid_from := some "2025-01-01T00:00:00Z",
               valid_to := Option.none, is_current := true, change_type := "INSERT",
               changed_fields := [], record_data := Option.none,
               ingestion_timestamp := "2025-01-01T00:00:01Z" }]
            [{ event_type := some "UPDATE", event_timestamp := some "2025-01-02T00:00:00Z",
               record_id := some "001AAAAAAAAAAAA",
               before := some [("name", PyPrim.str "Acme")],
               after := some [("name", PyPrim.str "Acme Corp")] }]).new_history_records.length
         else 0) :=
  C4_store_failure_accounting_amended "2025-01-03T00:00:00Z"
    (fun _ => false) (fun _ => true) true
    [{ id := "001AAAAAAAAAAAA", valid_from := some "2025-01-01T00:00:00Z",
       valid_to := Option.none, is_current := true, change_type := "INSERT",
       changed_fields := [], record_data := Option.none,
       ingestion_timestamp := "2025-01-01T00:00:01Z" }]
    [{ event_type := some "UPDATE", event_timestamp := some "2025-01-02T00:00:00Z",
       record_id := some "001AAAAAAAAAAAA",
       before := some [("name", PyPrim.str "Acme")],
       after := some [("name", PyPrim.str "Acme Corp")] }]
    (by
      intro e he
      rw [List.mem_singleton] at he
      subst he
      intro _
      exact ⟨by decide, by decide⟩)

/-! ### Helper definitions and lemmas: per-event effect of the replay

The per-event branch of `process_hourly_changes` depends only on the
event and the group's (fixed) current-record read, so the queued records
and closes of a group are characterised by per-event functions applied to
the group's longest non-raising prefix. -/

/-- Whether replaying the event raises (`detect_changes` on a null
snapshot of an UPDATE). -/
def raises (e : CDCEvent) : Bool :=
  match e.event_type, e.before, e.after with
  | some "UPDATE", some _, some _ => false
  | some "UPDATE", _, _ => true
  | _, _, _ => false

/-- History records queued by one event. -/
def eventRecs (now : String) (rid : String) (e : CDCEvent) :
    List HistoryRecord :=
  match e.event_type with
  | some "INSERT" =>
      [create_history_record now rid e.after e.event_timestamp "INSERT" []
        true Option.none]
  | some "UPDATE" =>
      match e.before, e.after with
      | some b, some a =>
          if (detect_changes b a Option.none).has_changes then
            [create_history_record now rid (some a) e.event_timestamp "UPDATE"
              (detect_changes b a Option.none).changed_fields true Option.none]
          else []
      | _, _ => []
  | _ => []

/-- Close operations queued by one event. -/
def eventCloses (cur : Option HistoryRecord) (rid : String) (e : CDCEvent) :
    List CloseOp :=
  match e.event_type with
  | some "UPDATE" =>
      match e.before, e.after with
      | some b, some a =>
          if (detect_changes b a Option.none).has_changes then
            if cur.isSome then [{ record_id := rid, valid_to := e.event_timestamp }]
            else []
          else []
      | _, _ => []
  | some "DELETE" =>
      if cur.isSome then [{ record_id := rid, valid_to := e.event_timestamp }]
      else []
  | _ => []

/-- Whether the event creates a history record (INSERT, or UPDATE whose
snapshots differ on a tracked field). -/
def isCreating (e : CDCEvent) : Bool :=
  match e.event_type with
  | some "INSERT" => true
  | some "UPDATE" =>
      match e.before, e.after with
      | some b, some a => (detect_changes b a Option.none).has_changes
      | _, _ => false
  | _ => false

/-- Number of record-creating events of a batch for one key. -/
def creatingCount (events : List CDCEvent) (k : String) : Nat :=
  (events.filter (fun e => e.record_id == some k && isCreating e)).length

/-- A raising event is an UPDATE with a null snapshot. -/
lemma raises_spec (e : CDCEvent) (h : raises e = true) :
    e.event_type = some "UPDATE" ∧
      (e.before = Option.none ∨ e.after = Option.none) := by
  unfold raises at h
  split at h
  · exact absurd h (by simp)
  · rename_i hba
    have het : e.event_type = some "UPDATE" := by assumption
    refine ⟨het, ?_⟩
    rcases hbo : e.before with _ | b
    · exact Or.inl rfl
    · rcases hao : e.after with _ | a
      · exact Or.inr rfl
      · exact (hba b a hbo hao).elim
  · exact absurd h (by simp)

/-- A raising event's replay yields the caught exception. -/
lemma processEvent_of_raises (now : String) (cur : Option HistoryRecord)
    (rid : String) (acc : BatchAcc) (e : CDCEvent) (h : raises e = true) :
    processEvent now cur rid acc e = Except.error () := by
  rcases raises_spec e h with ⟨het, hor⟩
  unfold processEvent
  rw [het]
  rcases hbo : e.before with _ | b
  · simp [hbo]
  · rcases hao : e.after with _ | a
    · simp [hbo, hao]
    · exfalso
      rcases hor with h1 | h1
      · rw [hbo] at h1
        exact Option.noConfusion h1
      · rw [hao] at h1
        exact Option.noConfusion h1

/-- A successful replay of one event appends exactly its `eventRecs` and
`eventCloses` to the shared queues. -/
lemma processEvent_lists (now : String) (cur : Option HistoryRecord)
    (rid : String) (acc : BatchAcc) (e : CDCEvent) (acc1 : BatchAcc)
    (hok : processEvent now cur rid acc e = Except.ok acc1) :
    acc1.new_history_records
      = acc.new_history_records ++ eventRecs now rid e ∧
    acc1.records_to_close
      = acc.records_to_close ++ eventCloses cur rid e := by
  unfold processEvent at hok
  unfold eventRecs eventCloses
  repeat' split
  all_goals (repeat' split at hok)
  all_goals try (simp at hok)
  all_goals try simp_all
  all_goals (
    try (simp only [Except.ok.injEq] at hok)
    subst hok
    constructor <;> rfl)

/-- A non-raising event is an UPDATE only with both snapshots present. -/
lemma nonRaising_of_raises_false (e : CDCEvent) (h : raises e = false) :
    nonRaising e := by
  intro hup
  constructor
  · intro hbo
    have htrue : raises e = true := by
      unfold raises
      rw [hup, hbo]
      rfl
    rw [htrue] at h
    exact Bool.noConfusion h
  · intro hao
    have htrue : raises e = true := by
      unfold raises
      rw [hup, hao]
      rcases hbo : e.before with _ | b <;> rfl
    rw [htrue] at h
    exact Bool.noConfusion h

/-- Records queued by one group's replay: the per-event records of its
longest non-raising prefix. -/
def groupRecs (now : String) (g : String × List CDCEvent) :
    List HistoryRecord :=
  (g.2.takeWhile (fun e => !raises e)).flatMap (eventRecs now g.1)

/-- Close operations queued by one group's replay. -/
def groupCloses (cur : Option HistoryRecord) (g : String × List CDCEvent) :
    List CloseOp :=
  (g.2.takeWhile (fun e => !raises e)).flatMap (eventCloses cur g.1)

/-- The per-group event loop appends exactly the per-event records and
closes of the group's longest non-raising prefix. -/
lemma processGroupEvents_lists (now : String) (cur : Option HistoryRecord)
    (rid : String) (es : List CDCEvent) (acc : BatchAcc) :
    (processGroupEvents now cur rid es acc).1.new_history_records
      = acc.new_history_records
        ++ (es.takeWhile (fun e => !raises e)).flatMap (eventRecs now rid) ∧
    (processGroupEvents now cur rid es acc).1.records_to_close
      = acc.records_to_close
        ++ (es.takeWhile (fun e => !raises e)).flatMap (eventCloses cur rid) := by
  induction es generalizing acc with
  | nil => simp [processGroupEvents]
  | cons e es ih =>
      by_cases hr : raises e = true
      · have herr := processEvent_of_raises now cur rid acc e hr
        simp only [processGroupEvents, herr]
        constructor <;> simp [List.takeWhile_cons, hr]
      · have hr' : raises e = false := by
          revert hr
          cases raises e <;> simp
        have hisok := processEvent_isOk_of_nonRaising now cur rid acc e
          (nonRaising_of_raises_false e hr')
        cases hok : processEvent now cur rid acc e with
        | error u =>
            rw [hok] at hisok
            exact Bool.noConfusion hisok
        | ok acc1 =>
            rcases processEvent_lists now cur rid acc e acc1 hok with ⟨hl1, hl2⟩
            simp only [processGroupEvents, hok]
            rcases ih acc1 with ⟨ih1, ih2⟩
            rw [ih1, ih2, hl1, hl2]
            constructor <;>
              simp [List.takeWhile_cons, hr', List.append_assoc]

/-- One pass of the per-group loop appends exactly the group's records
and closes. -/
lemma processGroup_lists (now : String) (rf : String → Bool) (store : Store)
    (acc : BatchAcc) (g : String × List CDCEvent) :
    (processGroup now rf store acc g).new_history_records
      = acc.new_history_records ++ groupRecs now g ∧
    (processGroup now rf store acc g).records_to_close
      = acc.records_to_close
        ++ groupCloses (get_current_record rf store g.1) g := by
  simp only [processGroup]
  rcases processGroupEvents_lists now (get_current_record rf store g.1)
    g.1 g.2 acc with ⟨h1, h2⟩
  cases hev : processGroupEvents now (get_current_record rf store g.1) g.1 g.2 acc with
  | mk acc1 raised =>
      rw [hev] at h1 h2
      cases raised <;> exact ⟨h1, h2⟩

/-- The planning phase queues exactly the concatenation of each group's
records and closes. -/
lemma batchPlan_lists (now : String) (rf : String → Bool) (store : Store)
    (events : List CDCEvent) :
    (batchPlan now rf store events).new_history_records
      = (group_events_by_record events).flatMap (groupRecs now) ∧
    (batchPlan now rf store events).records_to_close
      = (group_events_by_record events).flatMap
          (fun g => groupCloses (get_current_record rf store g.1) g) := by
  unfold batchPlan
  have h : ∀ (gs : List (String × List CDCEvent)) (acc : BatchAcc),
      (gs.foldl (processGroup now rf store) acc).new_history_records
        = acc.new_history_records ++ gs.flatMap (groupRecs now) ∧
      (gs.foldl (processGroup now rf store) acc).records_to_close
        = acc.records_to_close
          ++ gs.flatMap (fun g => groupCloses (get_current_record rf store g.1) g) := by
    intro gs
    induction gs with
    | nil => intro acc; simp
    | cons g gs ih =>
        intro acc
        rw [List.foldl_cons]
        rcases ih (processGroup now rf store acc g) with ⟨ih1, ih2⟩
        rcases processGroup_lists now rf store acc g with ⟨p1, p2⟩
        rw [ih1, ih2, p1, p2]
        constructor <;> simp [List.append_assoc]
  simpa using h (group_events_by_record events)
    { new_history_records := [], records_to_close := [],
      stats := { total_events := events.length, records_processed := 0,
                 records_inserted := 0, records_updated := 0, errors := 0 } }

/-- Every record queued by an event carries the group's key and is an
open current row. -/
lemma eventRecs_mem (now rid : String) (e : CDCEvent) :
    ∀ r ∈ eventRecs now rid e,
      r.id = rid ∧ r.is_current = true ∧ r.valid_to = Option.none := by
  intro r hr
  unfold eventRecs at hr
  repeat' split at hr
  all_goals simp at hr
  all_goals (subst hr ; exact ⟨rfl, rfl, rfl⟩)

/-- An event queues one record iff it is record-creating, none otherwise. -/
lemma eventRecs_length (now rid : String) (e : CDCEvent) :
    (eventRecs now rid e).length = if isCreating e then 1 else 0 := by
  unfold eventRecs isCreating
  repeat' split
  all_goals simp_all

/-- Every close queued by an event carries the group's key and the
event's timestamp. -/
lemma eventCloses_mem (cur : Option HistoryRecord) (rid : String) (e : CDCEvent) :
    ∀ c ∈ eventCloses cur rid e,
      c.record_id = rid ∧ c.valid_to = e.event_timestamp := by
  intro c hc
  unfold eventCloses at hc
  repeat' split at hc
  all_goals simp at hc
  all_goals (subst hc ; exact ⟨rfl, rfl⟩)

/-- A record-creating event is either an INSERT, or (when the group's
read found a current record) it also queues a close. -/
lemma eventRecs_insert_or_closes (now rid : String) (e : CDCEvent)
    (cur : Option HistoryRecord) (hcur : cur.isSome = true) :
    ∀ r ∈ eventRecs now rid e,
      e.event_type = some "INSERT" ∨ eventCloses cur rid e ≠ [] := by
  intro r hr
  unfold eventRecs at hr
  unfold eventCloses
  repeat' split at hr
  all_goals try (simp at hr)
  all_goals first
    | exact Or.inl (by assumption)
    | (refine Or.inr ?_ ; simp_all)

/-- A non-creating event queues nothing. -/
lemma flatMap_eventRecs_length (now rid : String) (l : List CDCEvent) :
    (l.flatMap (eventRecs now rid)).length = l.countP isCreating := by
  induction l with
  | nil => simp
  | cons e es ih =>
      simp only [List.flatMap_cons, List.length_append, ih,
        List.countP_cons, eventRecs_length]
      by_cases h : isCreating e = true <;> simp [h] <;> omega

/-- Current-row counts add over table concatenation. -/
lemma currentCount_append (a b : Store) (k : String) :
    currentCount (a ++ b) k = currentCount a k + currentCount b k := by
  simp [currentCount, List.filter_append]

/-- Head contribution to the current-row count. -/
lemma currentCount_cons (x : HistoryRecord) (l : Store) (k : String) :
    currentCount (x :: l) k
      = (if x.id == k && x.is_current then 1 else 0) + currentCount l k := by
  by_cases h : (x.id == k && x.is_current) = true <;>
    simp [currentCount, List.filter_cons, h, Nat.add_comm]

/-- Effect of one close on the current-row count of a key. -/
lemma currentCount_close (s : Store) (c : CloseOp) (k : String) :
    currentCount (close_current_record s c) k
      = if c.record_id = k then 0 else currentCount s k := by
  induction s with
  | nil =>
      by_cases h : c.record_id = k <;>
        simp [close_current_record, currentCount, h]
  | cons r rest ih =>
      have hstep : close_current_record (r :: rest) c
          = (if r.id == c.record_id && r.is_current then
              { r with valid_to := c.valid_to, is_current := false } else r)
            :: close_current_record rest c := rfl
      rw [hstep, currentCount_cons, currentCount_cons, ih]
      by_cases hk : c.record_id = k
      · simp only [hk, if_pos rfl, if_true, eq_self_iff_true]
        by_cases hcond : (r.id == c.record_id && r.is_current) = true
        · have hid : r.id = c.record_id := by
            have h1 : (r.id == c.record_id) = true := by
              cases h2 : (r.id == c.record_id) with
              | false =>
                  rw [h2] at hcond
                  simp at hcond
              | true => rfl
            exact eq_of_beq h1
          have hcur : r.is_current = true := by
            cases h2 : r.is_current with
            | false =>
                rw [h2] at hcond
                simp at hcond
            | true => rfl
          have hp : r.id = k ∧ r.is_current = true := ⟨by rw [hid, hk], hcur⟩
          simp [hcond, hp]
        · have hfalse : (r.id == k && r.is_current) = false := by
            rw [← hk]
            simpa using hcond
          simp [hcond, hfalse]
      · simp only [hk, if_false]
        by_cases hcond : (r.id == c.record_id && r.is_current) = true
        · have hid : (r.id == c.record_id) = true := by
            cases h2 : (r.id == c.record_id) with
            | false =>
                rw [h2] at hcond
                simp at hcond
            | true => rfl
          have hidk : (r.id == k) = false := by
            have h3 : r.id = c.record_id := eq_of_beq hid
            rw [h3]
            exact beq_false_of_ne hk
          simp [hcond, hidk]
        · simp [hcond]

/-- Effect of the close phase on the current-row count of a key: any
close for the key zeroes it, other closes leave it alone. -/
lemma currentCount_foldl_close (closes : List CloseOp) (s : Store) (k : String) :
    currentCount (closes.foldl close_current_record s) k
      = if closes.any (fun c => c.record_id == k) then 0
        else currentCount s k := by
  induction closes generalizing s with
  | nil => simp
  | cons c cs ih =>
      rw [List.foldl_cons, ih]
      by_cases hck : c.record_id = k
      · by_cases hcs : cs.any (fun c => c.record_id == k) = true <;>
          simp [hck, hcs, currentCount_close]
      · by_cases hcs : cs.any (fun c => c.record_id == k) = true <;>
          simp [hck, hcs, currentCount_close, beq_false_of_ne hck]

/-- With no close failures, the close phase is the plain fold of the
close statement over the queue. -/
lemma runCloses_nofail_fst (store : Store) (closes : List CloseOp) :
    (runCloses (fun _ => false) store closes).1
      = closes.foldl close_current_record store := by
  have h : ∀ (s : Store) (e0 i0 : Nat),
      (closes.foldl
        (fun st c =>
          match st with
          | (s, errs, i) =>
              if (fun (_ : Nat) => false) i then (s, errs + 1, i + 1)
              else (close_current_record s c, errs, i + 1))
        (s, e0, i0)).1 = closes.foldl close_current_record s := by
    induction closes with
    | nil => intro s e0 i0; rfl
    | cons c cs ih =>
        intro s e0 i0
        rw [List.foldl_cons, List.foldl_cons]
        exact ih (close_current_record s c) e0 (i0 + 1)
  unfold runCloses
  cases hfold : closes.foldl
      (fun st c =>
        match st with
        | (s, errs, i) =>
            if (fun (_ : Nat) => false) i then (s, errs + 1, i + 1)
            else (close_current_record s c, errs, i + 1))
      (store, 0, 0) with
  | mk s1 p =>
      have h2 := h store 0 0
      rw [hfold] at h2
      simpa using h2

/-- Without an insert failure, the insert phase appends the queued
records. -/
lemma runInsert_nofail (store : Store) (records : List HistoryRecord) :
    runInsert false store records = (store ++ records, 0) := by
  unfold runInsert
  by_cases h : records = []
  · simp [h]
  · simp [h]

/-- In a family of groups with distinct keys, all current rows of one key
come from a single group. -/
lemma currentCount_flatMap_concentrated
    (gs : List (String × List CDCEvent))
    (F : String × List CDCEvent → List HistoryRecord) (k : String)
    (hown : ∀ g ∈ gs, ∀ r ∈ F g, r.id = g.1)
    (hnodup : (gs.map Prod.fst).Nodup) :
    currentCount (gs.flatMap F) k = 0 ∨
      ∃ g, g ∈ gs ∧ g.1 = k ∧
        currentCount (gs.flatMap F) k = currentCount (F g) k := by
  induction gs with
  | nil => exact Or.inl rfl
  | cons g gs ih =>
      have hsplit : currentCount ((g :: gs).flatMap F) k
          = currentCount (F g) k + currentCount (gs.flatMap F) k := by
        rw [List.flatMap_cons, currentCount_append]
      by_cases hk : g.1 = k
      · have hzero : currentCount (gs.flatMap F) k = 0 := by
          unfold currentCount
          rw [List.length_eq_zero, List.filter_eq_nil_iff]
          intro r hr
          rcases List.mem_flatMap.mp hr with ⟨g1, hg1, hrg1⟩
          have hid : r.id = g1.1 := hown g1 (List.mem_cons_of_mem g hg1) r hrg1
          intro hcontra
          have hidk : r.id = k := by
            have h1 : (r.id == k) = true := by
              cases h2 : (r.id == k) with
              | false =>
                  rw [h2] at hcontra
                  simp at hcontra
              | true => rfl
            exact eq_of_beq h1
          have : g1.1 ∈ gs.map Prod.fst := List.mem_map.mpr ⟨g1, hg1, rfl⟩
          rw [← hid, hidk, ← hk] at this
          exact (List.nodup_cons.mp hnodup).1 this
        refine Or.inr ⟨g, List.mem_cons_self g gs, hk, ?_⟩
        rw [hsplit, hzero, Nat.add_zero]
      · have hgzero : currentCount (F g) k = 0 := by
          unfold currentCount
          rw [List.length_eq_zero, List.filter_eq_nil_iff]
          intro r hr hcontra
          have hid : r.id = g.1 := hown g (List.mem_cons_self g gs) r hr
          have hidk : r.id = k := by
            have h1 : (r.id == k) = true := by
              cases h2 : (r.id == k) with
              | false =>
                  rw [h2] at hcontra
                  simp at hcontra
              | true => rfl
            exact eq_of_beq h1
          exact hk (by rw [← hid, hidk])
        rcases ih (fun g1 hg1 => hown g1 (List.mem_cons_of_mem g hg1))
            (List.nodup_cons.mp hnodup).2 with h0 | ⟨g1, hg1, hg1k, heq⟩
        · exact Or.inl (by rw [hsplit, hgzero, h0])
        · exact Or.inr ⟨g1, List.mem_cons_of_mem g hg1, hg1k,
            by rw [hsplit, hgzero, heq, Nat.zero_add]⟩

/-- Rows after the close phase: either untouched rows of the original
table, or current rows closed by one of the queued operations. -/
lemma mem_foldl_close (closes : List CloseOp) (s : Store) (r : HistoryRecord)
    (hr : r ∈ closes.foldl close_current_record s) :
    r ∈ s ∨ ∃ r0 c, r0 ∈ s ∧ c ∈ closes ∧ r0.is_current = true ∧
      r0.id = c.record_id ∧
      r = { r0 with valid_to := c.valid_to, is_current := false } := by
  induction closes generalizing s with
  | nil => exact Or.inl hr
  | cons c cs ih =>
      rw [List.foldl_cons] at hr
      rcases ih (close_current_record s c) hr with h | ⟨r0, c1, hr0, hc1, hcur, hid, heq⟩
      · rcases List.mem_map.mp h with ⟨r1, hr1, hmap⟩
        by_cases hcond : (r1.id == c.record_id && r1.is_current) = true
        · right
          refine ⟨r1, c, hr1, List.mem_cons_self _ _, ?_, ?_, ?_⟩
          · cases h2 : r1.is_current with
            | false =>
                rw [h2] at hcond
                simp at hcond
            | true => rfl
          · have h1 : (r1.id == c.record_id) = true := by
              cases h2 : (r1.id == c.record_id) with
              | false =>
                  rw [h2] at hcond
                  simp at hcond
              | true => rfl
            exact eq_of_beq h1
          · rw [← hmap]
            simp [hcond]
        · left
          rw [← hmap]
          simp only [hcond, if_false]
          simpa using hr1
      · rcases List.mem_map.mp hr0 with ⟨r1, hr1, hmap1⟩
        by_cases hcond : (r1.id == c.record_id && r1.is_current) = true
        · exfalso
          rw [← hmap1] at hcur
          simp [hcond] at hcur
        · have hr0r1 : r1 = r0 := by
            rw [← hmap1]
            simp [hcond]
          subst hr0r1
          exact Or.inr ⟨r1, c1, hr1, List.mem_cons_of_mem _ hc1, hcur, hid, heq⟩

/-- Every queued close of a batch originates in one of the batch's
events: its key is the event's key and its `valid_to` the event's
timestamp. -/
lemma batchPlan_close_origin (now : String) (rf : String → Bool)
    (store : Store) (events : List CDCEvent) (c : CloseOp)
    (hc : c ∈ (batchPlan now rf store events).records_to_close) :
    ∃ e ∈ events, e.record_id = some c.record_id ∧
      c.valid_to = e.event_timestamp := by
  rw [(batchPlan_lists now rf store events).2] at hc
  rcases List.mem_flatMap.mp hc with ⟨g, hg, hcg⟩
  unfold groupCloses at hcg
  rcases List.mem_flatMap.mp hcg with ⟨e, he_tw, hce⟩
  have he_g : e ∈ g.2 := (List.takeWhile_sublist _).subset he_tw
  rcases eventCloses_mem (get_current_record rf store g.1) g.1 e c hce with ⟨hck, hct⟩
  refine ⟨e, grouped_mem events g hg e he_g, ?_, hct⟩
  rw [hck]
  exact (grouped_ownership events g hg).1 e he_g

/-- Every record queued by a batch is an open current row. -/
lemma batchPlan_new_records (now : String) (rf : String → Bool)
    (store : Store) (events : List CDCEvent) :
    ∀ r ∈ (batchPlan now rf store events).new_history_records,
      r.is_current = true ∧ r.valid_to = Option.none := by
  intro r hr
  rw [(batchPlan_lists now rf store events).1] at hr
  rcases List.mem_flatMap.mp hr with ⟨g, hg, hrg⟩
  unfold groupRecs at hrg
  rcases List.mem_flatMap.mp hrg with ⟨e, he_tw, hre⟩
  exact ⟨(eventRecs_mem now g.1 e r hre).2.1, (eventRecs_mem now g.1 e r hre).2.2⟩

/-- Rows of one group's queue carry the group's key. -/
lemma groupRecs_mem (now : String) (g : String × List CDCEvent) :
    ∀ r ∈ groupRecs now g,
      r.id = g.1 ∧ r.is_current = true ∧ r.valid_to = Option.none := by
  intro r hr
  unfold groupRecs at hr
  rcases List.mem_flatMap.mp hr with ⟨e, he_tw, hre⟩
  exact eventRecs_mem now g.1 e r hre

/-- A member group's events count no more than the joined groups. -/
lemma countP_le_groupsJoin (gs : List (String × List CDCEvent))
    (g : String × List CDCEvent) (hg : g ∈ gs) (q : CDCEvent → Bool) :
    g.2.countP q ≤ (groupsJoin gs).countP q := by
  induction gs with
  | nil => simp at hg
  | cons g1 gs ih =>
      have hsplit : (groupsJoin (g1 :: gs)).countP q
          = g1.2.countP q + (groupsJoin gs).countP q := by
        simp [groupsJoin, List.countP_append]
      rcases List.mem_cons.mp hg with h | h
      · subst h
        rw [hsplit]
        exact Nat.le_add_right _ _
      · rw [hsplit]
        exact Nat.le_trans (ih h) (Nat.le_add_left _ _)

/-- A group queues at most as many records as the batch has
record-creating events for its key. -/
lemma groupRecs_length_le (now : String) (events : List CDCEvent)
    (g : String × List CDCEvent) (hg : g ∈ group_events_by_record events) :
    (groupRecs now g).length ≤ creatingCount events g.1 := by
  unfold groupRecs
  rw [flatMap_eventRecs_length]
  have h1 : (g.2.takeWhile (fun e => !raises e)).countP isCreating
      ≤ g.2.countP isCreating :=
    (List.takeWhile_sublist _).countP_le _
  have h2 : g.2.countP isCreating
      = g.2.countP (fun e => e.record_id == some g.1 && isCreating e) := by
    apply List.countP_congr
    intro e he
    have hrid : e.record_id = some g.1 := (grouped_ownership events g hg).1 e he
    simp [hrid]
  have h3 : g.2.countP (fun e => e.record_id == some g.1 && isCreating e)
      ≤ (groupsJoin (group_events_by_record events)).countP
          (fun e => e.record_id == some g.1 && isCreating e) :=
    countP_le_groupsJoin _ g hg _
  have h4 : (groupsJoin (group_events_by_record events)).countP
        (fun e => e.record_id == some g.1 && isCreating e)
      = (events.filter keepEvent).countP
          (fun e => e.record_id == some g.1 && isCreating e) :=
    (grouped_join_perm events).countP_eq _
  have h5 : (events.filter keepEvent).countP
        (fun e => e.record_id == some g.1 && isCreating e)
      ≤ events.countP (fun e => e.record_id == some g.1 && isCreating e) :=
    (List.filter_sublist events).countP_le _
  have h6 : events.countP (fun e => e.record_id == some g.1 && isCreating e)
      = creatingCount events g.1 := by
    unfold creatingCount
    rw [List.countP_eq_length_filter]
  omega

/-- A key with a current row yields a successful, `some` read. -/
lemma get_current_record_isSome (store : Store) (k : String)
    (h : 1 ≤ currentCount store k) :
    (get_current_record (fun _ => false) store k).isSome = true := by
  unfold get_current_record
  simp only [if_false, Bool.false_eq_true]
  unfold currentCount at h
  cases hf : store.filter (fun r => r.id == k && r.is_current) with
  | nil =>
      rw [hf] at h
      simp at h
  | cons a l => rfl

/-! ### Claim C1 -/

/-- C1 amended: provided (i) each entity key has at most one
record-creating event (INSERT, or UPDATE whose snapshots differ on a
tracked field) in the batch, (ii) no key receiving an INSERT event has a
current record in the store, and (iii) every event's timestamp (when
present) is strictly greater than the `valid_from` of its key's current
record (when both are present), a store satisfying the two invariants
satisfies them again after `process_hourly_changes`: at most one current
History Record per key, and `valid_from < valid_to` whenever both are
set. -/
theorem C1_invariants_amended (now : String) (store : Store)
    (events : List CDCEvent)
    (hA : ∀ k, currentCount store k ≤ 1)
    (hB : ∀ r ∈ store, ∀ f t, r.valid_from = some f → r.valid_to = some t →
      strLt f t = true)
    (h1 : ∀ k, creatingCount events k ≤ 1)
    (h2 : ∀ e ∈ events, e.event_type = some "INSERT" →
      ∀ k, e.record_id = some k → currentCount store k = 0)
    (h3 : ∀ e ∈ events, ∀ k, e.record_id = some k →
      ∀ r ∈ store, r.id = k → r.is_current = true →
      ∀ f t, r.valid_from = some f → e.event_timestamp = some t →
      strLt f t = true) :
    (∀ k, currentCount (process_hourly_changes now store events).2 k ≤ 1) ∧
    (∀ r ∈ (process_hourly_changes now store events).2,
      ∀ f t, r.valid_from = some f → r.valid_to = some t →
      strLt f t = true) := by
  have hfinal : (process_hourly_changes now store events).2
      = ((batchPlan now (fun _ => false) store events).records_to_close.foldl
          close_current_record store)
        ++ (batchPlan now (fun _ => false) store events).new_history_records := by
    simp only [process_hourly_changes, process_hourly_changes_f,
      runInsert_nofail, runCloses_nofail_fst]
  constructor
  · intro k
    rw [hfinal, currentCount_append]
    have hclosed_le : currentCount
        ((batchPlan now (fun _ => false) store events).records_to_close.foldl
          close_current_record store) k ≤ currentCount store k := by
      rw [currentCount_foldl_close]
      by_cases hany : ((batchPlan now (fun _ => false) store
          events).records_to_close.any (fun c => c.record_id == k)) = true
      · simp [hany]
      · simp [hany]
    have hnew1 := (batchPlan_lists now (fun _ => false) store events).1
    have hown : ∀ g ∈ group_events_by_record events,
        ∀ r ∈ groupRecs now g, r.id = g.1 :=
      fun g hg r hr => (groupRecs_mem now g r hr).1
    rcases currentCount_flatMap_concentrated (group_events_by_record events)
        (groupRecs now) k hown (grouped_keys_nodup events) with h0 | hcase
    · rw [hnew1, h0]
      have := hA k
      omega
    · rcases hcase with ⟨g, hg, hgk, heqc⟩
      rw [hnew1, heqc]
      have hcc_le : currentCount (groupRecs now g) k
          ≤ (groupRecs now g).length := List.length_filter_le _ _
      have hlen_le : (groupRecs now g).length ≤ creatingCount events k := by
        rw [← hgk]
        exact groupRecs_length_le now events g hg
      by_cases hnil : groupRecs now g = []
      · have hz : currentCount (groupRecs now g) k = 0 := by
          rw [hnil]
          rfl
        rw [hz]
        have := hA k
        omega
      · obtain ⟨r, hr⟩ := List.exists_mem_of_ne_nil _ hnil
        have hrg := hr
        unfold groupRecs at hrg
        rcases List.mem_flatMap.mp hrg with ⟨e, he_tw, hre⟩
        have he_g : e ∈ g.2 := (List.takeWhile_sublist _).subset he_tw
        have he_ev : e ∈ events := grouped_mem events g hg e he_g
        have he_rid : e.record_id = some g.1 :=
          (grouped_ownership events g hg).1 e he_g
        by_cases hpre : currentCount store k = 0
        · have hz : currentCount
              ((batchPlan now (fun _ => false) store events).records_to_close.foldl
                close_current_record store) k = 0 := by
            omega
          have := h1 k
          omega
        · have hpre1 : 1 ≤ currentCount store k :=
            Nat.one_le_iff_ne_zero.mpr hpre
          have hcur : (get_current_record (fun _ => false) store g.1).isSome
              = true := by
            rw [hgk]
            exact get_current_record_isSome store k hpre1
          rcases eventRecs_insert_or_closes now g.1 e
              (get_current_record (fun _ => false) store g.1) hcur r hre with
            hins | hcl
          · exfalso
            exact hpre (h2 e he_ev hins k (by rw [he_rid, hgk]))
          · obtain ⟨c, hc⟩ := List.exists_mem_of_ne_nil _ hcl
            have hcb : c ∈ (batchPlan now (fun _ => false) store
                events).records_to_close := by
              rw [(batchPlan_lists now (fun _ => false) store events).2]
              refine List.mem_flatMap.mpr ⟨g, hg, ?_⟩
              unfold groupCloses
              exact List.mem_flatMap.mpr ⟨e, he_tw, hc⟩
            have hck : c.record_id = k := by
              rw [(eventCloses_mem _ _ _ c hc).1, hgk]
            have hany : ((batchPlan now (fun _ => false) store
                events).records_to_close.any (fun c => c.record_id == k))
                = true :=
              List.any_eq_true.mpr ⟨c, hcb, by rw [hck] ; simp⟩
            have hzero : currentCount
                ((batchPlan now (fun _ => false) store events).records_to_close.foldl
                  close_current_record store) k = 0 := by
              rw [currentCount_foldl_close, if_pos hany]
            rw [hzero]
            have := h1 k
            omega
  · intro r hrmem f t hf ht
    rw [hfinal] at hrmem
    rcases List.mem_append.mp hrmem with hr | hr
    · rcases mem_foldl_close _ _ _ hr with h |
        ⟨r0, c, hr0, hcc, hcur0, hid0, heq0⟩
      · exact hB r h f t hf ht
      · subst heq0
        rcases batchPlan_close_origin now (fun _ => false) store events c hcc
          with ⟨e, he, herid, hts⟩
        have hts2 : e.event_timestamp = some t := by
          rw [← hts]
          exact ht
        exact h3 e he c.record_id herid r0 hr0 hid0 hcur0 f t hf hts2
    · have hprops := batchPlan_new_records now (fun _ => false) store events r hr
      rw [hprops.2] at ht
      exact Option.noConfusion ht

/-- Counterexample for C1: a store holding exactly one current record
for a key (so it satisfies the invariant) and a batch consisting of one
INSERT event for the same key.  The INSERT branch never closes the
existing current record, so after the batch the key has two records with
`is_current = true`. -/
theorem C1_counterexample :
    (let pre : HistoryRecord :=
      { id := "001AAAAAAAAAAAA", valid_from := some "2025-01-01T00:00:00Z",
        valid_to := Option.none, is_current := true, change_type := "INSERT",
        changed_fields := [], record_data := Option.none,
        ingestion_timestamp := "2025-01-01T00:00:01Z" }
     let ev : CDCEvent :=
      { event_type := some "INSERT", event_timestamp := some "2025-01-02T00:00:00Z",
        record_id := some "001AAAAAAAAAAAA", before := Option.none,
        after := some [("id", PyPrim.str "001AAAAAAAAAAAA")] }
     (∀ k, currentCount [pre] k ≤ 1) ∧
       ¬ (∀ k, currentCount
            (process_hourly_changes "2025-01-02T00:00:01Z" [pre] [ev]).2 k ≤ 1)) := by
  refine ⟨?_, ?_⟩
  · intro k
    exact List.length_filter_le _ _
  · intro hcontra
    exact absurd (hcontra "001AAAAAAAAAAAA") (by decide)

/-- Witness for C1's amended theorem: an empty store and a single INSERT
event satisfy all hypotheses. -/
theorem C1_witness :
    (∀ k, currentCount (process_hourly_changes "2025-01-02T00:00:00Z" []
        [{ event_type := some "INSERT",
           event_timestamp := some "2025-01-01T00:00:00Z",
           record_id := some "001AAAAAAAAAAAA", before := Option.none,
           after := some [("id", PyPrim.str "001AAAAAAAAAAAA")] }]).2 k ≤ 1) ∧
    (∀ r ∈ (process_hourly_changes "2025-01-02T00:00:00Z" []
        [{ event_type := some "INSERT",
           event_timestamp := some "2025-01-01T00:00:00Z",
           record_id := some "001AAAAAAAAAAAA", before := Option.none,
           after := some [("id", PyPrim.str "001AAAAAAAAAAAA")] }]).2,
      ∀ f t, r.valid_from = some f → r.valid_to = some t →
      strLt f t = true) :=
  C1_invariants_amended "2025-01-02T00:00:00Z" []
    [{ event_type := some "INSERT",
       event_timestamp := some "2025-01-01T00:00:00Z",
       record_id := some "001AAAAAAAAAAAA", before := Option.none,
       after := some [("id", PyPrim.str "001AAAAAAAAAAAA")] }]
    (fun _ => Nat.zero_le 1)
    (fun r hr => absurd hr (List.not_mem_nil r))
    (fun _ => List.length_filter_le _ _)
    (fun _ _ _ _ _ => rfl)
    (fun _ _ _ _ r hr => absurd hr (List.not_mem_nil r))

/-! ### Claim C6 -/

/-- Counterexample for C6: an UPDATE event with `object_type` and
`event_type` present but both snapshots null.  The null/required-field
check reports only the missing-'after' error and returns immediately;
the missing-'before' error is not reported. -/
theorem C6_counterexample :
    validate_null_required_fields
      { event_type := PyVal.prim (PyPrim.str "UPDATE"),
        object_type := PyVal.prim (PyPrim.str "Account"),
        record_id := PyVal.noneV, event_timestamp := PyVal.noneV,
        changed_fields := PyVal.noneV, before := PyVal.noneV,
        after := PyVal.noneV } =
      Except.ok (false, ["Missing 'after' data for UPDATE event"]) ∧
    ¬ "Missing 'before' data for UPDATE event"
        ∈ ["Missing 'after' data for UPDATE event"] :=
  ⟨rfl, by decide⟩

/-- C6 amended: for every UPDATE event with truthy `object_type` and
`event_type` and a null `after` snapshot, the null/required-field check
short-circuits with the single missing-'after' error — the
missing-'before' check is not reached, whatever `before` holds.  (A
missing `object_type` or `event_type` likewise short-circuits to a
single descriptive error.) -/
theorem C6_missing_after_shortcircuits_amended (e : PyEvent)
    (hot : e.object_type.truthy = true)
    (het : e.event_type = PyVal.prim (PyPrim.str "UPDATE"))
    (hafter : e.after = PyVal.prim PyPrim.none) :
    validate_null_required_fields e =
      Except.ok (false, ["Missing 'after' data for UPDATE event"]) := by
  unfold validate_null_required_fields
  simp [hot, het, hafter, PyVal.pyStr, PyPrim.pyStr]
  rfl

/-- Witness for C6's amended theorem. -/
theorem C6_witness :
    validate_null_required_fields
      { event_type := PyVal.prim (PyPrim.str "UPDATE"),
        object_type := PyVal.prim (PyPrim.str "Contact"),
        record_id := PyVal.noneV, event_timestamp := PyVal.noneV,
        changed_fields := PyVal.noneV,
        before := PyVal.dict [("id", PyPrim.str "003AAAAAAAAAAAA")],
        after := PyVal.prim PyPrim.none } =
      Except.ok (false, ["Missing 'after' data for UPDATE event"]) :=
  C6_missing_after_shortcircuits_amended
    { event_type := PyVal.prim (PyPrim.str "UPDATE"),
      object_type := PyVal.prim (PyPrim.str "Contact"),
      record_id := PyVal.noneV, event_timestamp := PyVal.noneV,
      changed_fields := PyVal.noneV,
      before := PyVal.dict [("id", PyPrim.str "003AAAAAAAAAAAA")],
      after := PyVal.prim PyPrim.none }
    (by decide) rfl rfl

/-! ### Claim C3 -/

/-- A snapshot field that is a mapping (dict) or null. -/
def PyVal.mappingOrNull : PyVal → Bool
  | PyVal.prim PyPrim.none => true
  | PyVal.dict _ => true
  | _ => false

/-- The null/required-field check returns (never raises) when `after` is
a mapping or null. -/
lemma validate_null_required_fields_isOk (e : PyEvent)
    (ha : e.after.mappingOrNull = true) :
    (validate_null_required_fields e).isOk = true := by
  unfold validate_null_required_fields
  rcases hae : e.after with p | xs | kvs
  · rcases p with _ | b | n | s
    · repeat' split
      all_goals try rfl
      all_goals simp_all [PyVal.truthy]
    · rw [hae] at ha
      exact Bool.noConfusion ha
    · rw [hae] at ha
      exact Bool.noConfusion ha
    · rw [hae] at ha
      exact Bool.noConfusion ha
  · rw [hae] at ha
    exact Bool.noConfusion ha
  · repeat' split
    all_goals try rfl
    all_goals simp_all [PyVal.truthy]

/-- The field-type check returns (never raises) when both snapshots are
mappings or null. -/
lemma validate_field_types_isOk (e : PyEvent)
    (ha : e.after.mappingOrNull = true) (hb : e.before.mappingOrNull = true) :
    (validate_field_types e).isOk = true := by
  unfold validate_field_types
  rcases hae : e.after with pa | xsa | kvsa
  · rcases pa with _ | b | n | s
    · rcases hbe : e.before with pb | xsb | kvsb
      · rcases pb with _ | b2 | n2 | s2
        · repeat' split
          all_goals try rfl
          all_goals simp_all [PyVal.truthy]
        · rw [hbe] at hb
          exact Bool.noConfusion hb
        · rw [hbe] at hb
          exact Bool.noConfusion hb
        · rw [hbe] at hb
          exact Bool.noConfusion hb
      · rw [hbe] at hb
        exact Bool.noConfusion hb
      · repeat' split
        all_goals try rfl
        all_goals simp_all [PyVal.truthy]
    · rw [hae] at ha
      exact Bool.noConfusion ha
    · rw [hae] at ha
      exact Bool.noConfusion ha
    · rw [hae] at ha
      exact Bool.noConfusion ha
  · rw [hae] at ha
    exact Bool.noConfusion ha
  · rcases hbe : e.before with pb | xsb | kvsb
    · rcases pb with _ | b2 | n2 | s2
      · repeat' split
        all_goals try rfl
        all_goals simp_all [PyVal.truthy]
      · rw [hbe] at hb
        exact Bool.noConfusion hb
      · rw [hbe] at hb
        exact Bool.noConfusion hb
      · rw [hbe] at hb
        exact Bool.noConfusion hb
    · rw [hbe] at hb
      exact Bool.noConfusion hb
    · repeat' split
      all_goals try rfl
      all_goals simp_all [PyVal.truthy]

/-- The foreign-key check returns (never raises) when `after` is a
mapping or null. -/
lemma validate_foreign_keys_isOk (e : PyEvent)
    (ha : e.after.mappingOrNull = true) :
    (validate_foreign_keys e).isOk = true := by
  unfold validate_foreign_keys
  rcases hae : e.after with p | xs | kvs
  · rcases p with _ | b | n | s
    · repeat' split
      all_goals try rfl
      all_goals simp_all [PyVal.truthy]
    · rw [hae] at ha
      exact Bool.noConfusion ha
    · rw [hae] at ha
      exact Bool.noConfusion ha
    · rw [hae] at ha
      exact Bool.noConfusion ha
  · rw [hae] at ha
    exact Bool.noConfusion ha
  · repeat' split
    all_goals try rfl
    all_goals simp_all [PyVal.truthy]

/-- Shape of a full validation run on an event whose snapshots are
mappings or null: it returns an `(is_valid, errors)` pair with
`is_valid` deciding emptiness of the error list. -/
lemma validate_event_shape (o : ClockOracle) (stats : VStats) (e : PyEvent)
    (ha : e.after.mappingOrNull = true) (hb : e.before.mappingOrNull = true) :
    ∃ errs stats2, validate_event o stats e
      = Except.ok ((decide (errs = []), errs), stats2) := by
  obtain ⟨vn, hvn⟩ : ∃ v, validate_null_required_fields e = Except.ok v := by
    have h := validate_null_required_fields_isOk e ha
    cases hres : validate_null_required_fields e with
    | ok v => exact ⟨v, rfl⟩
    | error u =>
        rw [hres] at h
        exact Bool.noConfusion h
  obtain ⟨vt, hvt⟩ : ∃ v, validate_field_types e = Except.ok v := by
    have h := validate_field_types_isOk e ha hb
    cases hres : validate_field_types e with
    | ok v => exact ⟨v, rfl⟩
    | error u =>
        rw [hres] at h
        exact Bool.noConfusion h
  obtain ⟨vf, hvf⟩ : ∃ v, validate_foreign_keys e = Except.ok v := by
    have h := validate_foreign_keys_isOk e ha
    cases hres : validate_foreign_keys e with
    | ok v => exact ⟨v, rfl⟩
    | error u =>
        rw [hres] at h
        exact Bool.noConfusion h
  unfold validate_event
  rw [hvn, hvt, hvf]
  exact ⟨_, _, rfl⟩

/-- C3: on every event whose `before` and `after` are each a mapping or
null, `validate_event` returns normally with a pair
`(is_valid, errors)` — no failure mode propagates as an exception, and
`is_valid` holds exactly when the error list is empty. -/
theorem C3_validate_event_never_raises (o : ClockOracle) (stats : VStats)
    (e : PyEvent) (ha : e.after.mappingOrNull = true)
    (hb : e.before.mappingOrNull = true) :
    ∃ is_valid errs stats2,
      validate_event o stats e = Except.ok ((is_valid, errs), stats2) ∧
      (is_valid = true ↔ errs = []) := by
  rcases validate_event_shape o stats e ha hb with ⟨errs, stats2, heq⟩
  exact ⟨decide (errs = []), errs, stats2, heq, by simp⟩

/-- Witness for C3 at a concrete event with an invalid enum value and a
non-string timestamp (both failure modes land in the error list). -/
theorem C3_witness :
    ∃ is_valid errs stats2,
      validate_event
        { parse_ok := fun _ => true, in_future := fun _ => false,
          age_days := fun _ => 0 }
        VStats.init
        { event_type := PyVal.prim (PyPrim.str "UPSERT"),
          object_type := PyVal.prim (PyPrim.str "Account"),
          record_id := PyVal.prim (PyPrim.int 42),
          event_timestamp := PyVal.prim (PyPrim.bool true),
          changed_fields := PyVal.list [],
          before := PyVal.prim PyPrim.none,
          after := PyVal.dict [("id", PyPrim.str "001AAAAAAAAAAAA")] }
        = Except.ok ((is_valid, errs), stats2) ∧
      (is_valid = true ↔ errs = []) :=
  C3_validate_event_never_raises
    { parse_ok := fun _ => true, in_future := fun _ => false,
      age_days := fun _ => 0 }
    VStats.init
    { event_type := PyVal.prim (PyPrim.str "UPSERT"),
      object_type := PyVal.prim (PyPrim.str "Account"),
      record_id := PyVal.prim (PyPrim.int 42),
      event_timestamp := PyVal.prim (PyPrim.bool true),
      changed_fields := PyVal.list [],
      before := PyVal.prim PyPrim.none,
      after := PyVal.dict [("id", PyPrim.str "001AAAAAAAAAAAA")] }
    rfl rfl

/-! ### Claim C5 -/

/-- Membership in the accumulated error list survives a single-error
validation step: `applySingle` only ever appends. -/
lemma mem_applySingle (x name : String) (r : Bool × Option String)
    (errors : List String) (stats : VStats) (h : x ∈ errors) :
    x ∈ (applySingle name r errors stats).1 := by
  rcases r with ⟨b, err⟩
  cases b
  · cases err with
    | none => simpa [applySingle] using h
    | some m =>
        simp [applySingle]
        exact Or.inl h
  · simpa [applySingle] using h

/-- Membership in the accumulated error list survives a multi-error
validation step: `applyMulti` only ever appends. -/
lemma mem_applyMulti (x name : String) (r : Bool × List String)
    (errors : List String) (stats : VStats) (h : x ∈ errors) :
    x ∈ (applyMulti name r errors stats).1 := by
  rcases r with ⟨b, errs⟩
  cases b
  · simp [applyMulti]
    exact Or.inl h
  · simpa [applyMulti] using h

/-- A failing single-error validation deposits its message in the list. -/
lemma applySingle_fail_mem (name m : String) (errors : List String)
    (stats : VStats) :
    m ∈ (applySingle name (false, some m) errors stats).1 := by
  simp [applySingle]

/-- The pure error/statistics chain of `validate_event`, with the results
of the three snapshot-reading checks passed in as values. -/
def validateSteps (o : ClockOracle) (stats : VStats) (e : PyEvent)
    (vn vt vf : Bool × List String) : List String × VStats :=
  let stats0 := { stats with total := stats.total + 1 }
  let s1 := applySingle "event_type" (validate_event_type e) [] stats0
  let s2 := applySingle "object_type" (validate_object_type e) s1.1 s1.2
  let s3 := applySingle "record_id" (validate_record_id_format e) s2.1 s2.2
  let s4 := applySingle "timestamp" (validate_timestamp_format o e) s3.1 s3.2
  let s5 := applySingle "changed_fields" (validate_changed_fields e) s4.1 s4.2
  let s6 := applyMulti "null_fields" vn s5.1 s5.2
  let s7 := applyMulti "field_types" vt s6.1 s6.2
  applyMulti "foreign_keys" vf s7.1 s7.2

/-- When the three snapshot-reading checks return values,
`validate_event` is exactly the pure chain `validateSteps`. -/
lemma validate_event_eq (o : ClockOracle) (stats : VStats) (e : PyEvent)
    (vn vt vf : Bool × List String)
    (hvn : validate_null_required_fields e = Except.ok vn)
    (hvt : validate_field_types e = Except.ok vt)
    (hvf : validate_foreign_keys e = Except.ok vf) :
    validate_event o stats e =
      Except.ok ((decide ((validateSteps o stats e vn vt vf).1 = []),
          (validateSteps o stats e vn vt vf).1),
        if (validateSteps o stats e vn vt vf).1 = [] then
          { (validateSteps o stats e vn vt vf).2 with
              valid := (validateSteps o stats e vn vt vf).2.valid + 1 }
        else
          { (validateSteps o stats e vn vt vf).2 with
              invalid := (validateSteps o stats e vn vt vf).2.invalid + 1 }) := by
  unfold validate_event
  rw [hvn, hvt, hvf]
  rfl

/-- C5: whenever `record_id` is present but fails the Salesforce-id
pattern, `validate_event` (on snapshots that are mappings or null, the
validator's input contract) returns `is_valid = false` with the format
error in the returned list, whatever the other fields hold: every other
check still runs and its errors accumulate alongside this one. -/
theorem C5_invalid_record_id_always_fails (o : ClockOracle) (stats : VStats)
    (e : PyEvent)
    (ha : e.after.mappingOrNull = true) (hb : e.before.mappingOrNull = true)
    (hrid : e.record_id ≠ PyVal.noneV)
    (hmatch : salesforce_id_match e.record_id.pyStr = false) :
    ∃ errs stats2,
      validate_event o stats e = Except.ok ((false, errs), stats2) ∧
      ("Invalid record_id format: '" ++ e.record_id.pyStr ++
        "'. Must be 15-18 alphanumeric characters") ∈ errs := by
  obtain ⟨vn, hvn⟩ : ∃ v, validate_null_required_fields e = Except.ok v := by
    have h := validate_null_required_fields_isOk e ha
    cases hres : validate_null_required_fields e with
    | ok v => exact ⟨v, rfl⟩
    | error u =>
        rw [hres] at h
        exact Bool.noConfusion h
  obtain ⟨vt, hvt⟩ : ∃ v, validate_field_types e = Except.ok v := by
    have h := validate_field_types_isOk e ha hb
    cases hres : validate_field_types e with
    | ok v => exact ⟨v, rfl⟩
    | error u =>
        rw [hres] at h
        exact Bool.noConfusion h
  obtain ⟨vf, hvf⟩ : ∃ v, validate_foreign_keys e = Except.ok v := by
    have h := validate_foreign_keys_isOk e ha
    cases hres : validate_foreign_keys e with
    | ok v => exact ⟨v, rfl⟩
    | error u =>
        rw [hres] at h
        exact Bool.noConfusion h
  have hr : validate_record_id_format e =
      (false, some ("Invalid record_id format: '" ++ e.record_id.pyStr ++
        "'. Must be 15-18 alphanumeric characters")) := by
    simp [validate_record_id_format, hrid, hmatch]
  have hmem : ("Invalid record_id format: '" ++ e.record_id.pyStr ++
      "'. Must be 15-18 alphanumeric characters")
      ∈ (validateSteps o stats e vn vt vf).1 := by
    simp only [validateSteps, hr]
    exact mem_applyMulti _ _ _ _ _ (mem_applyMulti _ _ _ _ _
      (mem_applyMulti _ _ _ _ _ (mem_applySingle _ _ _ _ _
        (mem_applySingle _ _ _ _ _ (applySingle_fail_mem _ _ _ _)))))
  have hne : (validateSteps o stats e vn vt vf).1 ≠ [] :=
    List.ne_nil_of_mem hmem
  rw [validate_event_eq o stats e vn vt vf hvn hvt hvf, decide_eq_false hne]
  exact ⟨_, _, rfl, hmem⟩

/-- Witness for C5: a malformed four-character `record_id` on an
otherwise fully valid Account INSERT event. -/
theorem C5_witness :
    ∃ errs stats2,
      validate_event
        { parse_ok := fun _ => true, in_future := fun _ => false,
          age_days := fun _ => 0 }
        VStats.init
        { event_type := PyVal.prim (PyPrim.str "INSERT"),
          object_type := PyVal.prim (PyPrim.str "Account"),
          record_id := PyVal.prim (PyPrim.str "A1b2"),
          event_timestamp := PyVal.prim (PyPrim.str "2024-06-01T12:00:00"),
          changed_fields := PyVal.noneV,
          before := PyVal.prim PyPrim.none,
          after := PyVal.dict
            [("id", PyPrim.str "001AAAAAAAAAAAA"),
             ("name", PyPrim.str "Acme"),
             ("created_date", PyPrim.str "2024-06-01T12:00:00"),
             ("last_modified_date", PyPrim.str "2024-06-01T12:00:00")] }
        = Except.ok ((false, errs), stats2) ∧
      ("Invalid record_id format: '" ++
        (PyVal.prim (PyPrim.str "A1b2")).pyStr ++
        "'. Must be 15-18 alphanumeric characters") ∈ errs :=
  C5_invalid_record_id_always_fails
    { parse_ok := fun _ => true, in_future := fun _ => false,
      age_days := fun _ => 0 }
    VStats.init
    { event_type := PyVal.prim (PyPrim.str "INSERT"),
      object_type := PyVal.prim (PyPrim.str "Account"),
      record_id := PyVal.prim (PyPrim.str "A1b2"),
      event_timestamp := PyVal.prim (PyPrim.str "2024-06-01T12:00:00"),
      changed_fields := PyVal.noneV,
      before := PyVal.prim PyPrim.none,
      after := PyVal.dict
        [("id", PyPrim.str "001AAAAAAAAAAAA"),
         ("name", PyPrim.str "Acme"),
         ("created_date", PyPrim.str "2024-06-01T12:00:00"),
         ("last_modified_date", PyPrim.str "2024-06-01T12:00:00")] }
    rfl rfl (by decide) rfl

/-! ### Claim C9 -/

/-- A clock oracle that accepts every timestamp string as a parseable,
current instant. -/
def isoOracle : ClockOracle :=
  { parse_ok := fun _ => true, in_future := fun _ => false,
    age_days := fun _ => 0 }

/-- A fully valid Account INSERT event. -/
def validEvent : PyEvent :=
  { event_type := PyVal.prim (PyPrim.str "INSERT"),
    object_type := PyVal.prim (PyPrim.str "Account"),
    record_id := PyVal.prim (PyPrim.str "001AAAAAAAAAAAA"),
    event_timestamp := PyVal.prim (PyPrim.str "2024-06-01T12:00:00"),
    changed_fields := PyVal.noneV,
    before := PyVal.noneV,
    after := PyVal.dict
      [("id", PyPrim.str "001AAAAAAAAAAAA"), ("name", PyPrim.str "Acme"),
       ("created_date", PyPrim.str "2024-06-01T12:00:00"),
       ("last_modified_date", PyPrim.str "2024-06-01T12:00:00")] }

/-- The valid event with its `record_id` replaced by a malformed one. -/
def invalidEvent : PyEvent :=
  { validEvent with record_id := PyVal.prim (PyPrim.str "bad-id") }

/-- Folding one validator instance over a list of events, threading the
running statistics (the repeated `validate_event` calls of a long-lived
`CDCValidator`). -/
def validateAll (o : ClockOracle) (stats : VStats) :
    List PyEvent → Except Unit VStats
  | [] => Except.ok stats
  | e :: rest => do
      let r ← validate_event o stats e
      validateAll o r.2 rest

/-- C9: `should_alert` holds exactly when the error rate strictly
exceeds the threshold; with `alert_threshold = 0.05`, after 19 valid
events and 1 invalid event (rate exactly 1/20) it is `false`, and after
one further invalid event (rate 2/21) it is `true`.  The first two
conjuncts exhibit the validity of the constituent events. -/
theorem C9_alert_threshold_strict :
    (∀ (t : ℚ) (s : VStats),
      should_alert t s = true ↔ get_error_rate s > t) ∧
    (∃ s, validate_event isoOracle VStats.init validEvent
        = Except.ok ((true, []), s)) ∧
    (∃ errs s, validate_event isoOracle VStats.init invalidEvent
        = Except.ok ((false, errs), s)) ∧
    ∃ s20,
      validateAll isoOracle VStats.init
        (List.replicate 19 validEvent ++ [invalidEvent]) = Except.ok s20 ∧
      get_error_rate s20 = 1 / 20 ∧
      should_alert (5 / 100) s20 = false ∧
      ∃ s21, validateAll isoOracle s20 [invalidEvent] = Except.ok s21 ∧
        get_error_rate s21 = 2 / 21 ∧
        should_alert (5 / 100) s21 = true := by
  refine ⟨fun t s => by simp [should_alert], ⟨_, rfl⟩, ⟨_, _, rfl⟩, ?_⟩
  refine ⟨{ total := 20, valid := 19, invalid := 1,
            error_types := [("record_id", 1)] }, rfl, ?_, ?_, ?_⟩
  · norm_num [get_error_rate]
  · simp only [should_alert, get_error_rate]
    norm_num
  refine ⟨{ total := 21, valid := 19, invalid := 2,
            error_types := [("record_id", 2)] }, rfl, ?_, ?_⟩
  · norm_num [get_error_rate]
  · simp only [should_alert, get_error_rate]
    norm_num
